import Mathlib

/-!
# Seabird detail view: a shallow embedding

Two revisions of the inspector panel are embedded:

* `Seabird.Ui`          : `src/ui/detail_view.go`
* `Seabird.InternalUi`  : `src/internal/ui/detail_view.go`

GTK widgets are heap objects that the Go code mutates in place.  Here a widget is the
value it has once the code that builds it has run: a constructor of `Widget` whose
fields record the arguments of the setters that were called on it.  Callbacks connected
to a widget are recorded as data (`Action`) and given their meaning by a separate
function that runs the body of the Go closure.  A failed Go type assertion (a panic) is
the result `none`.  Setters that only affect layout (alignment, size request, spacing,
ellipsis) are not recorded.  The chains `row.FirstChild().(*gtk.Box)...` that reach the
title box of an `adw.ActionRow` walk the widget tree libadwaita builds for every action
row; they are taken to succeed.

A quantity (`resource.Quantity`) is its exact rational value together with the `float64`
the library gives for it; the utilisation bars compute in IEEE 754 binary64 (`Float64`:
NaN, infinities, signed zero, rounding to nearest, ties to even).
-/

namespace Seabird

/-! ## Kubernetes API objects (only the fields the views read) -/

/-- An IEEE 754 binary64 value (Go `float64`): NaN, an infinity with its sign, or a finite
value given by its sign and its magnitude (so that `-0` and `+0` differ). -/
inductive Float64 where
  | nan
  | inf (negative : Bool)
  | finite (negative : Bool) (magnitude : ℚ)
  deriving DecidableEq

namespace Float64

/-- Nearest integer to a non-negative rational, ties to even. -/
def roundHalfEven (x : ℚ) : ℤ :=
  if Int.fract x < 1 / 2 then ⌊x⌋
  else if 1 / 2 < Int.fract x then ⌊x⌋ + 1
  else if ⌊x⌋ % 2 = 0 then ⌊x⌋ else ⌊x⌋ + 1

/-- The binary exponent of the unit in the last place of the binary64 numbers around the
magnitude `x > 0`: 53 significant bits, least normal exponent `-1022`. -/
def ulpExponent (x : ℚ) : ℤ := max (Int.log 2 x) (-1022) - 52

/-- Rounding of the exact magnitude `x ≥ 0` of a result with the given sign to binary64,
to nearest, ties to even: overflow gives an infinity, underflow a signed zero. -/
def round (negative : Bool) (x : ℚ) : Float64 :=
  if x = 0 then finite negative 0
  else
    let m : ℚ := roundHalfEven (x / 2 ^ ulpExponent x) * 2 ^ ulpExponent x
    if (2 : ℚ) ^ (1024 : ℤ) ≤ m then inf negative else finite negative m

/-- The binary64 value of a decimal constant of the source. -/
def ofRat (q : ℚ) : Float64 := round (decide (q < 0)) |q|

/-- Float division `x / y`. -/
def div : Float64 → Float64 → Float64
  | nan, _ => nan
  | _, nan => nan
  | inf _, inf _ => nan
  | inf s, finite t _ => inf (xor s t)
  | finite s _, inf t => finite (xor s t) 0
  | finite s m, finite t n =>
    if n = 0 then (if m = 0 then nan else inf (xor s t))
    else round (xor s t) (m / n)

/-- Float multiplication `x * y`. -/
def mul : Float64 → Float64 → Float64
  | nan, _ => nan
  | _, nan => nan
  | inf s, inf t => inf (xor s t)
  | inf s, finite t n => if n = 0 then nan else inf (xor s t)
  | finite s m, inf t => if m = 0 then nan else inf (xor s t)
  | finite s m, finite t n => round (xor s t) (m * n)

/-- Whether `x` comes strictly before `y` in the order of the Go builtin `min`: by value,
with `-0` before `+0`; `false` when one of them is NaN. -/
def before : Float64 → Float64 → Bool
  | nan, _ => false
  | _, nan => false
  | inf s, inf t => s && !t
  | inf s, finite _ _ => s
  | finite _ _, inf t => !t
  | finite s m, finite t n =>
    decide ((if s then -m else m) < (if t then -n else n))
      || (decide ((if s then -m else m) = (if t then -n else n)) && s && !t)

/-- The Go builtin `min(x, y)` on floats: NaN when an argument is NaN. -/
def min : Float64 → Float64 → Float64
  | nan, _ => nan
  | _, nan => nan
  | x, y => if before y x then y else x

/-- The rational value of a finite float. -/
def value? : Float64 → Option ℚ
  | finite s m => some (if s then -m else m)
  | _ => none

/-- A float that is `+Inf` or a finite value with a `+` sign and a magnitude `≥ 0`. -/
def NonNegative : Float64 → Prop
  | inf s => s = false
  | finite s m => s = false ∧ 0 ≤ m
  | nan => False

/-- A float that is `-Inf` or a finite value `≤ 1`. -/
def AtMostOne : Float64 → Prop
  | inf s => s = true
  | finite s m => (if s then -m else m) ≤ 1
  | nan => False

/-- A finite float whose value lies in `[0,1]`. -/
def InUnitInterval : Float64 → Prop
  | finite s m => 0 ≤ (if s then -m else m) ∧ (if s then -m else m) ≤ 1
  | _ => False

instance : DecidablePred NonNegative := fun x => by
  cases x <;> simp only [NonNegative] <;> infer_instance

instance : DecidablePred AtMostOne := fun x => by
  cases x <;> simp only [AtMostOne] <;> infer_instance

instance : DecidablePred InUnitInterval := fun x => by
  cases x <;> simp only [InUnitInterval] <;> infer_instance

end Float64

/-- A `resource.Quantity`: its exact value, and the `float64` that the library method
`AsApproximateFloat64` returns for it.  The library computes that float from the stored
representation of the quantity (unscaled value times `math.Pow10(scale)`, in `float64`,
`+Inf`/`-Inf` out of range); here it is data of the quantity. -/
structure Quantity where
  value : ℚ
  AsApproximateFloat64 : Float64

/-- The binary suffix `Mi`. -/
def Mi : ℚ := 1048576

/-- A quantity whose value is a binary64 number, with that number as its float. -/
def Quantity.exact (q : ℚ) : Quantity := ⟨q, .finite (decide (q < 0)) |q|⟩

/-- The entries of a `corev1.ResourceList` (a map) under the keys `cpu` and `memory`;
`none` is an absent key. -/
structure ResourceList where
  cpu : Option Quantity
  memory : Option Quantity

/-- `ResourceList.Memory`: the entry, or a zero quantity when the key is absent (the
library never returns a nil pointer). -/
def ResourceList.Memory (rl : ResourceList) : Quantity := rl.memory.getD (Quantity.exact 0)

/-- `ResourceList.Cpu`: the entry, or a zero quantity when the key is absent. -/
def ResourceList.Cpu (rl : ResourceList) : Quantity := rl.cpu.getD (Quantity.exact 0)

/-- `Quantity.IsZero`: decided on the exact value. -/
def Quantity.IsZero (q : Quantity) : Bool := decide (q.value = 0)

structure ResourceRequirements where
  limits : ResourceList
  requests : ResourceList

structure Container where
  name : String
  resources : ResourceRequirements

/-- `corev1.ContainerStatus`; its Go zero value is `⟨"", false⟩`. -/
structure ContainerStatus where
  name : String
  ready : Bool

/-- `corev1.PodCondition`; `type` and `status` are Go string types. -/
structure PodCondition where
  type : String
  status : String

/-- `corev1.ContainersReady`. -/
def ContainersReady : String := "ContainersReady"

/-- `corev1.ConditionTrue`. -/
def ConditionTrue : String := "True"

structure Pod where
  uid : String
  containerStatuses : List ContainerStatus
  conditions : List PodCondition

/-- The dynamic type of a `client.Object`, as far as the type switches tell them apart. -/
inductive ClientObject where
  | pod (p : Pod)
  | deployment (uid : String)
  | statefulSet (uid : String)
  | node (uid : String)
  | other (uid : String)

def ClientObject.GetUID : ClientObject → String
  | .pod p => p.uid
  | .deployment u => u
  | .statefulSet u => u
  | .node u => u
  | .other u => u

/-- The dynamic type of the `Object any` field of a property. -/
inductive AnyObject where
  | container (c : Container)
  | object (o : ClientObject)

/-! ## Widgets -/

/-- The text `fmt.Sprintf("%.0f%% " ++ what, value)`, kept as its arguments. -/
structure Tooltip where
  value : Float64
  what : String

/-- The body of a closure connected to the `activated` signal of a row. -/
inductive Action where
  /-- `NewDetailView(..); dv.behavior.SelectedObject.Update(object); Push(dv)` -/
  | pushDetailView (object : ClientObject)
  /-- `Push(NewLogPage(d.parent, d.behavior, object))` -/
  | pushLogPage (object : Container)

structure ActionRowData (W : Type) where
  title : String
  subtitle : String := ""
  subtitleSelectable : Bool := false
  activatable : Bool := false
  cssClasses : List String := []
  prefixes : List W := []
  suffixes : List W := []
  /-- widgets appended to the title box of the row (level 2 with children) -/
  content : List W := []
  activated : List Action := []

structure ExpanderRowData (W : Type) where
  title : String
  expanded : Bool
  /-- the `id` captured by the `state-flags-changed` handler -/
  id : String
  prefixes : List W := []
  suffixes : List W := []
  rows : List W := []

inductive Widget where
  /-- the Go `nil` widget -/
  | nil
  | image (iconName : String)
  /-- Modelled from the spec: `createStatusIcon(ok)` is not part of the sources; it is
  the ready (`true`) / not-ready (`false`) status indicator of a row. -/
  | statusIcon (ok : Bool)
  | label (text : String) (cssClass : String)
  /-- `gtk.LevelBar`: the value set and the offsets added -/
  | levelBar (value : Float64) (offsets : List (String × Float64))
  | box (tooltip : Option Tooltip) (children : List Widget)
  | flowBox (children : List Widget)
  | actionRow (r : ActionRowData Widget)
  | expanderRow (r : ExpanderRowData Widget)
  | preferencesGroup (title : String) (children : List Widget)

/-- Value of a decimal digit character. -/
def digitValue (c : Char) : Nat := c.toNat - 48

namespace Ui

/-! ## `src/ui/detail_view.go`: utilisation bars -/

/-- `createMemoryBar` (lines 283-309). -/
def createMemoryBar (actual : Quantity) (res : ResourceRequirements) : Widget :=
  let req := res.requests.Memory
  let req := if Quantity.IsZero req then res.limits.Memory else req
  if Quantity.IsZero req then
    Widget.box none []
  else
    let percent : Float64 := Float64.div actual.AsApproximateFloat64 req.AsApproximateFloat64
    let levelBar := Widget.levelBar (Float64.min percent (.finite false 1))
      [("lb-warning", Float64.ofRat (9 / 10)), ("lb-error", .finite false 1)]
    Widget.box (some ⟨Float64.mul percent (.finite false 100), "Memory"⟩)
      [Widget.image "memory-stick-symbolic", levelBar]

/-- `createCPUBar` (lines 311-336). -/
def createCPUBar (actual : Quantity) (res : ResourceRequirements) : Widget :=
  let req := res.requests.Cpu
  let req := if Quantity.IsZero req then res.limits.Cpu else req
  if Quantity.IsZero req then
    Widget.box none []
  else
    let percent : Float64 := Float64.div actual.AsApproximateFloat64 req.AsApproximateFloat64
    let levelBar := Widget.levelBar (Float64.min percent (.finite false 1))
      [("lb-warning", Float64.ofRat (9 / 10)), ("lb-error", .finite false 1)]
    Widget.box (some ⟨Float64.mul percent (.finite false 100), "CPU"⟩)
      [Widget.image "cpu-symbolic", levelBar]

/-! ## `src/ui/detail_view.go`: the property tree and the view -/

/-- Modelled from the spec: `behavior.ObjectProperty` is not part of the sources; it is
the property node, of which the view reads the fields `Name`, `Value`, `Children` and
`Object` (`none` is a nil `Object`). -/
inductive ObjectProperty where
  | mk (name value : String) (children : List ObjectProperty) (object : Option AnyObject)

def ObjectProperty.Name : ObjectProperty → String
  | .mk n _ _ _ => n

def ObjectProperty.Value : ObjectProperty → String
  | .mk _ v _ _ => v

def ObjectProperty.Children : ObjectProperty → List ObjectProperty
  | .mk _ _ c _ => c

def ObjectProperty.Object : ObjectProperty → Option AnyObject
  | .mk _ _ _ o => o

/-- Modelled from the spec: `behavior.DetailBehavior` is not part of the sources; the
view reads its reactive cells `SelectedResource` (here already rendered by
`util.ResourceGVR(..).String()`) and `SelectedObject`. -/
structure DetailBehavior where
  selectedResource : String
  selectedObject : ClientObject

/-- Modelled from the spec: `NewDetailBehavior` is not part of the sources; it is the
factory called when a view is pushed, giving the behaviour instance of the new view. -/
def DetailBehavior.NewDetailBehavior (b : DetailBehavior) : DetailBehavior := b

/-- `SelectedObject.Update(object)`. -/
def DetailBehavior.UpdateSelectedObject (b : DetailBehavior) (object : ClientObject) :
    DetailBehavior :=
  { b with selectedObject := object }

/-- A heap-allocated `*adw.PreferencesGroup`: its address and its content. -/
structure GroupRef where
  ref : Nat
  widget : Widget

/-- `DetailView` (lines 20-28): `prefPage` is the list of groups attached to the
preferences page; `allocated` counts the groups created so far by
`adw.NewPreferencesGroup`, so that every new group has a fresh address. -/
structure DetailView where
  behavior : DetailBehavior
  prefPage : List GroupRef
  groups : List GroupRef
  expanded : String → Option Bool
  allocated : Nat

/-- `NewDetailView` (lines 30-65): a fresh view with an empty expansion map. -/
def NewDetailView (behavior : DetailBehavior) : DetailView :=
  { behavior := behavior, prefPage := [], groups := [], expanded := fun _ => none,
    allocated := 0 }

/-- The outcome of a call of `renderObjectProperty`: `calls` lists the `level` argument
of every call of `renderObjectProperty` that was entered, in order, the outermost one
first; `result` is the returned widget, or `none` when a type assertion failed. -/
structure Rendered (α : Type) where
  calls : List Nat
  result : Option α

/-- The first status named `name`, or the zero value (the loop of lines 155-161). -/
def lookupStatus (name : String) : List ContainerStatus → ContainerStatus
  | [] => ⟨"", false⟩
  | s :: rest => if s.name = name then s else lookupStatus name rest

/-- `extendRow` (lines 150-252).  `ParseQuantity` belongs to the Kubernetes library and is
a parameter: `none` is a parse error, which is logged and skips the bar. -/
def extendRow (ParseQuantity : String → Option Quantity) (d : DetailView)
    (widget : Widget) (_level : Nat) (prop : ObjectProperty) : Option Widget :=
  match d.behavior.selectedObject with
  | .pod selected =>
    match prop.Object with
    | some (.container object) =>
      let status := lookupStatus object.name selected.containerStatuses
      match widget with
      | .expanderRow row =>
        let memory := prop.Children.filterMap fun p =>
          if p.Name = "Memory" then
            (ParseQuantity p.Value).map fun v => createMemoryBar v object.resources
          else none
        let cpu := prop.Children.filterMap fun p =>
          if p.Name = "CPU" then
            (ParseQuantity p.Value).map fun v => createCPUBar v object.resources
          else none
        let logs := Widget.actionRow
          { title := "Logs", activatable := true,
            suffixes := [Widget.image "go-next-symbolic"],
            activated := [Action.pushLogPage object] }
        some (.expanderRow
          { row with
            prefixes := row.prefixes ++ [Widget.statusIcon status.ready]
            suffixes := row.suffixes ++ memory ++ cpu
            rows := row.rows ++ [logs] })
      | _ => none
    | _ => some widget
  | .deployment _ =>
    match prop.Object with
    | some (.object (.pod object)) =>
      object.conditions.foldl (fun w cond =>
        if cond.type = ContainersReady then
          match w with
          | some (.actionRow row) =>
            some (.actionRow
              { row with
                prefixes := row.prefixes ++ [Widget.statusIcon (cond.status = ConditionTrue)]
                activatable := true
                subtitleSelectable := false
                suffixes := row.suffixes ++ [Widget.image "go-next-symbolic"]
                activated := row.activated ++ [Action.pushDetailView (.pod object)] })
          | _ => none
        else w) (some widget)
    | _ => some widget
  | .statefulSet _ =>
    match prop.Object with
    | some (.object (.pod object)) =>
      object.conditions.foldl (fun w cond =>
        if cond.type = ContainersReady then
          match w with
          | some (.actionRow row) =>
            some (.actionRow
              { row with
                prefixes := row.prefixes ++ [Widget.statusIcon (cond.status = ConditionTrue)]
                activatable := true
                subtitleSelectable := false
                suffixes := row.suffixes ++ [Widget.image "go-next-symbolic"]
                activated := row.activated ++ [Action.pushDetailView (.pod object)] })
          | _ => none
        else w) (some widget)
    | _ => some widget
  | .node _ =>
    match prop.Object with
    | some (.object (.pod object)) =>
      object.conditions.foldl (fun w cond =>
        if cond.type = ContainersReady then
          match w with
          | some (.actionRow row) =>
            some (.actionRow
              { row with
                prefixes := row.prefixes ++ [Widget.statusIcon (cond.status = ConditionTrue)]
                activatable := true
                subtitleSelectable := false
                suffixes := row.suffixes ++ [Widget.image "go-next-symbolic"]
                activated := row.activated ++ [Action.pushDetailView (.pod object)] })
          | _ => none
        else w) (some widget)
    | _ => some widget
  | .other _ => some widget

/-- The `id` of lines 94-99: resource, object UID, node name and level joined by `-`. -/
def expandedId (d : DetailView) (name : String) (level : Nat) : String :=
  "-".intercalate
    [d.behavior.selectedResource, d.behavior.selectedObject.GetUID, name, toString level]

mutual
/-- `renderObjectProperty` (lines 82-147).  The Go `switch` with its `fallthrough` from
`case 1` into `case 2` is the chain of conditions below. -/
def renderObjectProperty (ParseQuantity : String → Option Quantity) (d : DetailView)
    (level : Nat) : ObjectProperty → Rendered Widget
  | .mk name value children object =>
    if level = 0 then
      let rc := renderChildren ParseQuantity d (level + 1) children
      ⟨level :: rc.calls, rc.result.map fun ws => Widget.preferencesGroup name ws⟩
    else if level = 1 ∧ children.length > 0 then
      let id := expandedId d name level
      let rc := renderChildren ParseQuantity d (level + 1) children
      ⟨level :: rc.calls, rc.result.bind fun rows =>
        extendRow ParseQuantity d
          (Widget.expanderRow
            { title := name, id := id, rows := rows,
              expanded := decide (d.expanded id = some true) })
          level (.mk name value children object)⟩
    else if level = 1 ∨ level = 2 then
      if children.length > 0 then
        let rc := renderChildren ParseQuantity d (level + 1) children
        ⟨level :: rc.calls, rc.result.bind fun ws =>
          extendRow ParseQuantity d
            (Widget.actionRow
              { title := name, content := [Widget.flowBox ws], cssClasses := ["property"] })
            level (.mk name value children object)⟩
      else
        ⟨[level],
          extendRow ParseQuantity d
            (Widget.actionRow
              { title := name, subtitle := value, subtitleSelectable := true,
                cssClasses := ["property"] })
            level (.mk name value children object)⟩
    else if level = 3 then
      ⟨[level], some (Widget.box none
        [Widget.label (name ++ ":") "caption", Widget.label value "caption-heading"])⟩
    else
      ⟨[level], some Widget.nil⟩
/-- The loops `for _, child := range prop.Children { .. renderObjectProperty(level+1, child) }`:
the children are rendered in order; a failed type assertion ends the loop. -/
def renderChildren (ParseQuantity : String → Option Quantity) (d : DetailView)
    (level : Nat) : List ObjectProperty → Rendered (List Widget)
  | [] => ⟨[], some []⟩
  | child :: rest =>
    match renderObjectProperty ParseQuantity d level child with
    | ⟨calls, none⟩ => ⟨calls, none⟩
    | ⟨calls, some w⟩ =>
      let rc := renderChildren ParseQuantity d level rest
      ⟨calls ++ rc.calls, rc.result.map fun ws => w :: ws⟩
end

/-- The `state-flags-changed` handler of lines 103-105: `d.expanded[id] = row.Expanded()`.
GTK emits the signal; `rowExpanded` is the state of the row at that moment. -/
def onStateFlagsChanged (d : DetailView) (id : String) (rowExpanded : Bool) : DetailView :=
  { d with expanded := fun k => if k = id then some rowExpanded else d.expanded k }

/-- `prefPage.Remove(g)`: detaches the group with the address of `g`, if attached. -/
def PreferencesPage.Remove (page : List GroupRef) (g : GroupRef) : List GroupRef :=
  page.filter fun x => x.ref != g.ref

/-- `prefPage.Add(g)`. -/
def PreferencesPage.Add (page : List GroupRef) (g : GroupRef) : List GroupRef :=
  page ++ [g]

/-- The loop of lines 73-75: each property is rendered at level 0, the result asserted
to be a `*adw.PreferencesGroup` and appended to `d.groups`. -/
def appendGroups (ParseQuantity : String → Option Quantity) (d : DetailView) :
    List ObjectProperty → Option DetailView
  | [] => some d
  | prop :: rest =>
    match (renderObjectProperty ParseQuantity d 0 prop).result with
    | some (.preferencesGroup title children) =>
      appendGroups ParseQuantity
        { d with
          groups := d.groups ++ [⟨d.allocated, .preferencesGroup title children⟩]
          allocated := d.allocated + 1 } rest
    | _ => none

/-- `onPropertiesChange` (lines 67-80); `none` when a type assertion failed. -/
def onPropertiesChange (ParseQuantity : String → Option Quantity) (d : DetailView)
    (properties : List ObjectProperty) : Option DetailView :=
  let page := d.groups.foldl PreferencesPage.Remove d.prefPage
  let d := { d with prefPage := page, groups := [] }
  match appendGroups ParseQuantity d properties with
  | none => none
  | some d => some { d with prefPage := d.groups.foldl PreferencesPage.Add d.prefPage }

/-- A page of the `adw.NavigationView` the view sits in. -/
inductive Page where
  | detail (dv : DetailView)
  /-- Modelled from the spec: `NewLogPage` is not part of the sources; it is the log view
  of a container. -/
  | log (object : Container)

/-- The navigation stack, top first. -/
abbrev NavigationView := List Page

/-- The closures connected by `extendRow` (lines 189-191, 205-209, 224-228, 243-247). -/
def runAction (d : DetailView) (nav : NavigationView) : Action → NavigationView
  | .pushDetailView object =>
    let dv := NewDetailView d.behavior.NewDetailBehavior
    let dv := { dv with behavior := dv.behavior.UpdateSelectedObject object }
    Page.detail dv :: nav
  | .pushLogPage object => Page.log object :: nav

/-- Activation of a row by the user: an activatable action row runs its connected
closures in the order they were connected, any other widget does nothing. -/
def activate (d : DetailView) (nav : NavigationView) : Widget → NavigationView
  | .actionRow row => if row.activatable then row.activated.foldl (runAction d) nav else nav
  | _ => nav

/-- The body of the loop over `object.Status.Conditions` (lines 198-211, and its copies
at lines 217-230 and 236-249), as a step on the row; `none` is a failed assertion. -/
def podConditionStep (object : Pod) (w : Option Widget) (cond : PodCondition) :
    Option Widget :=
  if cond.type = ContainersReady then
    match w with
    | some (.actionRow row) =>
      some (.actionRow
        { row with
          prefixes := row.prefixes ++ [Widget.statusIcon (cond.status = ConditionTrue)]
          activatable := true
          subtitleSelectable := false
          suffixes := row.suffixes ++ [Widget.image "go-next-symbolic"]
          activated := row.activated ++ [Action.pushDetailView (.pod object)] })
    | _ => none
  else w

/-- Whether a widget is a collapsible row that is expanded. -/
def isExpanded : Widget → Bool
  | .expanderRow r => r.expanded
  | _ => false

/-- The sections a property set renders to: every property rendered at level 0, in
order; `none` when a rendering fails or is no `*adw.PreferencesGroup`. -/
def renderSections (ParseQuantity : String → Option Quantity) (d : DetailView) :
    List ObjectProperty → Option (List Widget)
  | [] => some []
  | prop :: rest =>
    match (renderObjectProperty ParseQuantity d 0 prop).result with
    | some (.preferencesGroup title children) =>
      (renderSections ParseQuantity d rest).map fun ws => .preferencesGroup title children :: ws
    | _ => none

/-- Fresh addresses `a, a+1, ..` for a list of new groups. -/
def allocate (a : Nat) : List Widget → List GroupRef
  | [] => []
  | w :: ws => ⟨a, w⟩ :: allocate (a + 1) ws

/-- The `id`s of the collapsible rows directly inside a rendered section, in order. -/
def expanderIds : Widget → List String
  | .preferencesGroup _ children =>
    children.filterMap fun w =>
      match w with
      | .expanderRow r => some r.id
      | _ => none
  | _ => []

/-- The value set on the level bar of a bar box, if the box has one. -/
def fillFraction : Widget → Option Float64
  | Widget.box _ [_, Widget.levelBar v _] => some v
  | _ => none

/-- The percentage reported by the tooltip of a bar box, if the box has one. -/
def tooltipPercent : Widget → Option Float64
  | Widget.box (some t) _ => some t.value
  | _ => none

end Ui

namespace InternalUi

/-! ## `src/internal/ui/detail_view.go` -/

/-- A `context.Context`: a root, or the child made by the `n`-th call of
`context.WithCancel` on `parent`. -/
inductive Context where
  | background (n : Nat)
  | withCancel (parent : Context) (n : Nat)
  deriving DecidableEq

/-- `d.behavior.Cluster`, a handle. -/
structure Cluster where
  name : String

/-- Modelled from the spec: the `Reference` of a text property is not part of the
sources; it is a lazy resolver that, given a scope and a cluster handle, yields an object
or a failure. -/
structure Reference where
  GetObject : Context → Cluster → Except String ClientObject

/-- The caller-supplied `Widget` callback of a property, named by a number: the model
records on which widget it was invoked, not what the callback does. -/
abbrev Hook := Nat

/-- Modelled from the spec: `api.Property` is not part of the sources; it is either a
`*api.TextProperty` (`Name`, `Value`, `Reference`, `Widget`) or a `*api.GroupProperty`
(`Name`, `Children`, `Widget`). -/
inductive Property where
  | text (name value : String) (reference : Option Reference) (widget : Option Hook)
  | group (name : String) (children : List Property) (widget : Option Hook)

structure ActionRowData (W : Type) where
  title : String
  subtitle : String := ""
  subtitleLines : Option Nat := none
  useMarkup : Bool := false
  cssClasses : List String := ["property"]
  activatable : Bool := false
  suffixes : List W := []
  /-- widgets appended to the title box of the row -/
  content : List W := []
  /-- the reference captured by the `activated` closure (lines 162-177) -/
  activated : Option Reference := none
  hook : Option Hook := none

structure ExpanderRowData (W : Type) where
  title : String
  expanded : Bool
  /-- the `id` captured by the `state-flags-changed` handler -/
  id : String
  rows : List W
  sensitive : Bool
  hook : Option Hook

inductive Widget where
  /-- the Go `nil` widget -/
  | nil
  | image (iconName : String)
  /-- the copy button: clicking puts `text` on the clipboard -/
  | copyButton (text : String)
  | label (text : String) (cssClasses : List String)
  | box (children : List Widget) (hook : Option Hook)
  | flowBox (children : List Widget)
  | actionRow (r : ActionRowData Widget)
  | expanderRow (r : ExpanderRowData Widget)
  | preferencesGroup (title : String) (children : List Widget) (hook : Option Hook)

/-- Modelled from the spec: `behavior.DetailBehavior` is not part of the sources; the
view reads `SelectedResource` (here already rendered by `util.ResourceGVR(..).String()`),
`SelectedObject` and `Cluster`; `ctx` is the scope the behaviour instance is bound to. -/
structure DetailBehavior where
  ctx : Context
  selectedResource : String
  selectedObject : ClientObject
  cluster : Cluster

/-- Modelled from the spec: `NewDetailBehavior(scope)` is not part of the sources; it is
the factory called when a view is pushed, binding the lifetime of the new behaviour
instance to the scope of the pushed view. -/
def DetailBehavior.NewDetailBehavior (b : DetailBehavior) (ctx : Context) : DetailBehavior :=
  { b with ctx := ctx }

/-- `SelectedObject.Update(obj)`. -/
def DetailBehavior.UpdateSelectedObject (b : DetailBehavior) (obj : ClientObject) :
    DetailBehavior :=
  { b with selectedObject := obj }

/-- A heap-allocated `*adw.PreferencesGroup`: its address and its content. -/
structure GroupRef where
  ref : Nat
  widget : Widget

/-- `DetailView` (lines 24-34): `tag` is the page tag (`uuid.NewString()`), `prefPage`
the list of groups attached to the preferences page; `allocated` counts the groups
created so far by `adw.NewPreferencesGroup`. -/
structure DetailView where
  ctx : Context
  behavior : DetailBehavior
  tag : Nat
  prefPage : List GroupRef
  groups : List GroupRef
  expanded : String → Option Bool
  allocated : Nat

/-- `NewDetailView` (lines 36-116), with the tag drawn for it. -/
def NewDetailView (ctx : Context) (behavior : DetailBehavior) (tag : Nat) : DetailView :=
  { ctx := ctx, behavior := behavior, tag := tag, prefPage := [], groups := [],
    expanded := fun _ => none, allocated := 0 }

/-- The `id` of line 217: `fmt.Sprintf("%s-%d-%d", resource, level, index)`. -/
def expandedId (d : DetailView) (level index : Nat) : String :=
  d.behavior.selectedResource ++ "-" ++ toString level ++ "-" ++ toString index

/-- The outcome of a call of `renderObjectProperty`: `calls` lists the `level` argument
of every call of `renderObjectProperty` that was entered, in order, the outermost one
first; `widget` is the value returned. -/
structure Rendered (α : Type) where
  calls : List Nat
  widget : α

mutual
/-- `renderObjectProperty` (lines 131-255). -/
def renderObjectProperty (d : DetailView) (level index : Nat) : Property → Rendered Widget
  | .text name value reference widget =>
    if level = 0 ∨ level = 1 ∨ level = 2 then
      match reference with
      | none =>
        ⟨[level], Widget.actionRow
          { title := name, subtitle := value, subtitleLines := some 5, hook := widget,
            suffixes := [Widget.copyButton value] }⟩
      | some ref =>
        ⟨[level], Widget.actionRow
          { title := name, subtitle := value, subtitleLines := some 5, hook := widget,
            activatable := true, suffixes := [Widget.image "go-next-symbolic"],
            activated := some ref }⟩
    else if level = 3 then
      ⟨[level], Widget.box
        [Widget.label name ["caption", "dim-label"], Widget.label value ["caption"]] widget⟩
    else
      ⟨[level], Widget.nil⟩
  | .group name children widget =>
    if level = 0 then
      let rc := renderChildren d (level + 1) 0 children
      ⟨level :: rc.calls, Widget.preferencesGroup name rc.widget widget⟩
    else if level = 1 then
      let id := expandedId d level index
      let rc := renderChildren d (level + 1) 0 children
      ⟨level :: rc.calls, Widget.expanderRow
        { title := name, id := id, expanded := decide (d.expanded id = some true),
          rows := rc.widget, sensitive := decide (children.length > 0), hook := widget }⟩
    else if level = 2 then
      let rc := renderChildren d (level + 1) 0 children
      ⟨level :: rc.calls, Widget.actionRow
        { title := name, content := [Widget.flowBox rc.widget], hook := widget }⟩
    else
      ⟨[level], Widget.nil⟩
/-- The loops `for i, child := range prop.Children { .. renderObjectProperty(level+1, i, child) }`,
from the child of index `i` on. -/
def renderChildren (d : DetailView) (level i : Nat) : List Property → Rendered (List Widget)
  | [] => ⟨[], []⟩
  | child :: rest =>
    let r := renderObjectProperty d level i child
    let rc := renderChildren d level (i + 1) rest
    ⟨r.calls ++ rc.calls, r.widget :: rc.widget⟩
end

/-- The `state-flags-changed` handler of lines 221-223: `d.expanded[id] = row.Expanded()`.
GTK emits the signal; `rowExpanded` is the state of the row at that moment. -/
def onStateFlagsChanged (d : DetailView) (id : String) (rowExpanded : Bool) : DetailView :=
  { d with expanded := fun k => if k = id then some rowExpanded else d.expanded k }

/-- `prefPage.Remove(g)`: detaches the group with the address of `g`, if attached. -/
def PreferencesPage.Remove (page : List GroupRef) (g : GroupRef) : List GroupRef :=
  page.filter fun x => x.ref != g.ref

/-- `prefPage.Add(g)`. -/
def PreferencesPage.Add (page : List GroupRef) (g : GroupRef) : List GroupRef :=
  page ++ [g]

/-- The loop of lines 124-128, from the property of index `i` on: each property is
rendered at level 0, the result asserted to be a `*adw.PreferencesGroup`, appended to
`d.groups` and attached to the page. -/
def appendGroups (d : DetailView) (i : Nat) : List Property → Option DetailView
  | [] => some d
  | prop :: rest =>
    match (renderObjectProperty d 0 i prop).widget with
    | .preferencesGroup title children hook =>
      let group : GroupRef := ⟨d.allocated, .preferencesGroup title children hook⟩
      appendGroups
        { d with
          groups := d.groups ++ [group]
          prefPage := PreferencesPage.Add d.prefPage group
          allocated := d.allocated + 1 } (i + 1) rest
    | _ => none

/-- `onPropertiesChange` (lines 118-129); `none` when the type assertion failed. -/
def onPropertiesChange (d : DetailView) (properties : List Property) : Option DetailView :=
  let page := d.groups.foldl PreferencesPage.Remove d.prefPage
  appendGroups { d with prefPage := page, groups := [] } 0 properties

/-- The `adw.NavigationView` the views sit in and what the closures connected to it can
change: `stack` are its pages, top first; `popped` the handlers connected to its `popped`
signal, each the tag it compares with and the scope it cancels; `cancelled` the scopes
whose cancel function was called; `contexts` and `uuids` count the scopes made by
`context.WithCancel` and the tags drawn so far; `log` are the lines printed. -/
structure World where
  stack : List DetailView
  popped : List (Nat × Context)
  cancelled : List Context
  contexts : Nat
  uuids : Nat
  log : List String

/-- The closure connected to `activated` on a reference row (lines 162-177). -/
def activateReference (d : DetailView) (reference : Reference) (w : World) : World :=
  match reference.GetObject d.ctx d.behavior.cluster with
  | .error err => { w with log := w.log ++ [err] }
  | .ok obj =>
    let ctx := Context.withCancel d.ctx w.contexts
    let dv := NewDetailView ctx (d.behavior.NewDetailBehavior ctx) w.uuids
    let dv := { dv with behavior := dv.behavior.UpdateSelectedObject obj }
    { w with
      stack := dv :: w.stack
      popped := w.popped ++ [(dv.tag, ctx)]
      contexts := w.contexts + 1
      uuids := w.uuids + 1 }

/-- Activation of a row by the user: an activatable action row runs the closure connected
to it, any other widget does nothing. -/
def activate (d : DetailView) (w : World) : Widget → World
  | .actionRow row =>
    if row.activatable then
      match row.activated with
      | some reference => activateReference d reference w
      | none => w
    else w
  | _ => w

/-- `NavigationView.Pop()`: with fewer than two pages nothing happens; otherwise the top
page is removed and the `popped` handlers run, each cancelling its scope when the tag of
the popped page is the tag it compares with (lines 172-176). -/
def pop (w : World) : World :=
  match w.stack with
  | page :: next :: rest =>
    { w with
      stack := next :: rest
      cancelled := w.cancelled ++
        (w.popped.filter fun h => h.1 == page.tag).map fun h => h.2 }
  | _ => w

/-- Whether a widget is a collapsible row that is expanded. -/
def isExpanded : Widget → Bool
  | .expanderRow r => r.expanded
  | _ => false

/-- Whether a property is a `*api.GroupProperty`. -/
def Property.isGroup : Property → Bool
  | .group _ _ _ => true
  | .text _ _ _ _ => false

/-- The sections a property set renders to: every property rendered at level 0 with its
index (counted from `i`), in order; `none` when a rendering is no `*adw.PreferencesGroup`. -/
def renderSections (d : DetailView) (i : Nat) : List Property → Option (List Widget)
  | [] => some []
  | prop :: rest =>
    match (renderObjectProperty d 0 i prop).widget with
    | .preferencesGroup title children hook =>
      (renderSections d (i + 1) rest).map fun ws => .preferencesGroup title children hook :: ws
    | _ => none

/-- Fresh addresses `a, a+1, ..` for a list of new groups. -/
def allocate (a : Nat) : List Widget → List GroupRef
  | [] => []
  | w :: ws => ⟨a, w⟩ :: allocate (a + 1) ws

/-- The `id`s of the collapsible rows directly inside a rendered section, in order. -/
def expanderIds : Widget → List String
  | .preferencesGroup _ children _ =>
    children.filterMap fun w =>
      match w with
      | .expanderRow r => some r.id
      | _ => none
  | _ => []

end InternalUi

end Seabird

/-! ## Theorems -/

namespace Seabird

/-! ### Utilisation bars -/

theorem int_log_two_eq (x : ℚ) (e : ℤ) (h1 : (2 : ℚ) ^ e ≤ x) (h2 : x < (2 : ℚ) ^ (e + 1)) :
    Int.log 2 x = e := by
  have hx : 0 < x := lt_of_lt_of_le (by positivity) h1
  have ha : e ≤ Int.log 2 x :=
    (Int.zpow_le_iff_le_log (by norm_num) hx).1 (by exact_mod_cast h1)
  have hb : Int.log 2 x < e + 1 :=
    (Int.lt_zpow_iff_log_lt (by norm_num) hx).1 (by exact_mod_cast h2)
  omega

theorem roundHalfEven_intCast (n : ℤ) : Float64.roundHalfEven (n : ℚ) = n := by
  simp [Float64.roundHalfEven]

theorem roundHalfEven_nonneg (x : ℚ) (hx : 0 ≤ x) : 0 ≤ Float64.roundHalfEven x := by
  have hf : 0 ≤ ⌊x⌋ := Int.floor_nonneg.2 hx
  unfold Float64.roundHalfEven
  split_ifs <;> omega

/-- A magnitude that is a binary64 number is left unchanged by rounding. -/
theorem float64_round_exact (negative : Bool) (x : ℚ) (e : ℤ) (n : ℤ)
    (h1 : (2 : ℚ) ^ e ≤ x) (h2 : x < (2 : ℚ) ^ (e + 1)) (he : -1022 ≤ e) (h3 : e < 1024)
    (hn : x = n * 2 ^ (e - 52)) : Float64.round negative x = .finite negative x := by
  have hx : 0 < x := lt_of_lt_of_le (by positivity) h1
  have hu : Float64.ulpExponent x = e - 52 := by
    rw [Float64.ulpExponent, int_log_two_eq x e h1 h2, max_eq_left he]
  have hq : x / 2 ^ (e - 52) = (n : ℚ) := by
    rw [hn]
    field_simp
  have hlt : ¬ ((2 : ℚ) ^ (1024 : ℤ) ≤ x) := by
    rw [not_le]
    exact lt_of_lt_of_le h2 (zpow_le_zpow_right₀ (by norm_num) (by omega))
  rw [Float64.round, if_neg hx.ne']
  simp only [hu, hq, roundHalfEven_intCast, ← hn, if_neg hlt]

/-- Rounding a magnitude `≥ 0` gives an infinity or a finite value of magnitude `≥ 0`, with
the sign asked for, never NaN. -/
theorem float64_round_cases (negative : Bool) (x : ℚ) (hx : 0 ≤ x) :
    Float64.round negative x = .inf negative
      ∨ ∃ m, 0 ≤ m ∧ Float64.round negative x = .finite negative m := by
  have hm : (0 : ℚ) ≤
      (Float64.roundHalfEven (x / 2 ^ Float64.ulpExponent x) : ℚ) * 2 ^ Float64.ulpExponent x := by
    have := roundHalfEven_nonneg (x / 2 ^ Float64.ulpExponent x) (by positivity)
    have h2 : (0 : ℚ) ≤ (Float64.roundHalfEven (x / 2 ^ Float64.ulpExponent x) : ℚ) := by
      exact_mod_cast this
    positivity
  simp only [Float64.round]
  split_ifs
  · exact Or.inr ⟨0, le_refl 0, rfl⟩
  · exact Or.inl rfl
  · exact Or.inr ⟨_, hm, rfl⟩

/-- The reference of a bar: the request when its value is non-zero, otherwise the limit. -/
theorem createBar_closed_form (actual : Quantity) (res : ResourceRequirements) :
    Ui.createMemoryBar actual res =
        (if (if res.requests.Memory.value ≠ 0 then res.requests.Memory
              else res.limits.Memory).value = 0
         then Widget.box none []
         else Widget.box
           (some ⟨Float64.mul (Float64.div actual.AsApproximateFloat64
              (if res.requests.Memory.value ≠ 0 then res.requests.Memory
                else res.limits.Memory).AsApproximateFloat64) (.finite false 100), "Memory"⟩)
           [Widget.image "memory-stick-symbolic",
            Widget.levelBar
              (Float64.min (Float64.div actual.AsApproximateFloat64
                (if res.requests.Memory.value ≠ 0 then res.requests.Memory
                  else res.limits.Memory).AsApproximateFloat64) (.finite false 1))
              [("lb-warning", Float64.ofRat (9 / 10)), ("lb-error", .finite false 1)]])
    ∧ Ui.createCPUBar actual res =
        (if (if res.requests.Cpu.value ≠ 0 then res.requests.Cpu
              else res.limits.Cpu).value = 0
         then Widget.box none []
         else Widget.box
           (some ⟨Float64.mul (Float64.div actual.AsApproximateFloat64
              (if res.requests.Cpu.value ≠ 0 then res.requests.Cpu
                else res.limits.Cpu).AsApproximateFloat64) (.finite false 100), "CPU"⟩)
           [Widget.image "cpu-symbolic",
            Widget.levelBar
              (Float64.min (Float64.div actual.AsApproximateFloat64
                (if res.requests.Cpu.value ≠ 0 then res.requests.Cpu
                  else res.limits.Cpu).AsApproximateFloat64) (.finite false 1))
              [("lb-warning", Float64.ofRat (9 / 10)), ("lb-error", .finite false 1)]]) := by
  constructor
  · unfold Ui.createMemoryBar Quantity.IsZero
    by_cases h1 : res.requests.Memory.value = 0
    · by_cases h2 : res.limits.Memory.value = 0 <;> simp [h1, h2]
    · simp [h1]
  · unfold Ui.createCPUBar Quantity.IsZero
    by_cases h1 : res.requests.Cpu.value = 0
    · by_cases h2 : res.limits.Cpu.value = 0 <;> simp [h1, h2]
    · simp [h1]

/-- C1, counterexample: an actual quantity and a request of `1e400` each, which
`ParseQuantity` accepts and for which `AsApproximateFloat64` returns `+Inf`.  The exact
ratio is `1`, so `actual / reference * 100 = 100`, but both bars report `Inf / Inf * 100`,
which is NaN. -/
theorem createBar_percent_nan_counterexample :
    Ui.tooltipPercent (Ui.createMemoryBar ⟨10 ^ 400, .inf false⟩
        ⟨⟨none, none⟩, ⟨none, some ⟨10 ^ 400, .inf false⟩⟩⟩) = some .nan
    ∧ Ui.tooltipPercent (Ui.createCPUBar ⟨10 ^ 400, .inf false⟩
        ⟨⟨none, none⟩, ⟨some ⟨10 ^ 400, .inf false⟩, none⟩⟩) = some .nan
    ∧ ((10 : ℚ) ^ 400 / 10 ^ 400 * 100 = 100)
    ∧ Float64.nan ≠ .finite false 100 := by
  refine ⟨?_, ?_, by norm_num, by decide⟩
  · simp [Ui.createMemoryBar, Ui.tooltipPercent, Quantity.IsZero, ResourceList.Memory,
      Float64.div, Float64.mul]
  · simp [Ui.createCPUBar, Ui.tooltipPercent, Quantity.IsZero, ResourceList.Cpu,
      Float64.div, Float64.mul]

theorem float64_round_half : Float64.round false (1 / 2) = .finite false (1 / 2) :=
  float64_round_exact false (1 / 2) (-1) (2 ^ 52) (by norm_num) (by norm_num) (by norm_num)
    (by norm_num) (by norm_num)

theorem float64_round_fifty : Float64.round false 50 = .finite false 50 :=
  float64_round_exact false 50 5 (50 * 2 ^ 47) (by norm_num) (by norm_num) (by norm_num)
    (by norm_num) (by norm_num)

theorem float64_round_75_64 : Float64.round false (75 / 64) = .finite false (75 / 64) :=
  float64_round_exact false (75 / 64) 0 (75 * 2 ^ 46) (by norm_num) (by norm_num)
    (by norm_num) (by norm_num) (by norm_num)

theorem float64_round_1875_16 : Float64.round false (1875 / 16) = .finite false (1875 / 16) :=
  float64_round_exact false (1875 / 16) 6 (1875 * 2 ^ 42) (by norm_num) (by norm_num)
    (by norm_num) (by norm_num) (by norm_num)

theorem float64_round_one (negative : Bool) :
    Float64.round negative 1 = .finite negative 1 :=
  float64_round_exact negative 1 0 (2 ^ 52) (by norm_num) (by norm_num) (by norm_num)
    (by norm_num) (by norm_num)

/-- C1, amended: `createMemoryBar` and `createCPUBar` take the request as reference when
its value is non-zero and the limit otherwise; with a zero reference the box stays empty
(no tooltip, no bar); otherwise a level bar is appended and the tooltip reports the
`float64` value `a / r * 100`, where `a` and `r` are the floats `AsApproximateFloat64`
gives for the actual quantity and the reference.  That value is exactly
`actual / reference * 100` when `a` and `r` are the exact values of a non-negative actual
quantity and a positive reference and the quotient and the product are binary64 numbers;
it is NaN when `a` and `r` are both infinite.  The three sample inputs give `50` (bar at
`1/2`), `117.1875` and the empty box. -/
theorem createBar_reference_and_percent (actual : Quantity) (res : ResourceRequirements) :
    (Ui.createMemoryBar actual res =
        (if (if res.requests.Memory.value ≠ 0 then res.requests.Memory
              else res.limits.Memory).value = 0
         then Widget.box none []
         else Widget.box
           (some ⟨Float64.mul (Float64.div actual.AsApproximateFloat64
              (if res.requests.Memory.value ≠ 0 then res.requests.Memory
                else res.limits.Memory).AsApproximateFloat64) (.finite false 100), "Memory"⟩)
           [Widget.image "memory-stick-symbolic",
            Widget.levelBar
              (Float64.min (Float64.div actual.AsApproximateFloat64
                (if res.requests.Memory.value ≠ 0 then res.requests.Memory
                  else res.limits.Memory).AsApproximateFloat64) (.finite false 1))
              [("lb-warning", Float64.ofRat (9 / 10)), ("lb-error", .finite false 1)]]))
    ∧ (Ui.createCPUBar actual res =
        (if (if res.requests.Cpu.value ≠ 0 then res.requests.Cpu
              else res.limits.Cpu).value = 0
         then Widget.box none []
         else Widget.box
           (some ⟨Float64.mul (Float64.div actual.AsApproximateFloat64
              (if res.requests.Cpu.value ≠ 0 then res.requests.Cpu
                else res.limits.Cpu).AsApproximateFloat64) (.finite false 100), "CPU"⟩)
           [Widget.image "cpu-symbolic",
            Widget.levelBar
              (Float64.min (Float64.div actual.AsApproximateFloat64
                (if res.requests.Cpu.value ≠ 0 then res.requests.Cpu
                  else res.limits.Cpu).AsApproximateFloat64) (.finite false 1))
              [("lb-warning", Float64.ofRat (9 / 10)), ("lb-error", .finite false 1)]]))
    ∧ (∀ reference : Quantity,
        reference = (if res.requests.Memory.value ≠ 0 then res.requests.Memory
          else res.limits.Memory) →
        0 ≤ actual.value → 0 < reference.value →
        actual.AsApproximateFloat64 = .finite false actual.value →
        reference.AsApproximateFloat64 = .finite false reference.value →
        Float64.round false (actual.value / reference.value)
          = .finite false (actual.value / reference.value) →
        Float64.round false (actual.value / reference.value * 100)
          = .finite false (actual.value / reference.value * 100) →
        Ui.tooltipPercent (Ui.createMemoryBar actual res)
          = some (.finite false (actual.value / reference.value * 100)))
    ∧ (∀ reference : Quantity,
        reference = (if res.requests.Cpu.value ≠ 0 then res.requests.Cpu
          else res.limits.Cpu) →
        0 ≤ actual.value → 0 < reference.value →
        actual.AsApproximateFloat64 = .finite false actual.value →
        reference.AsApproximateFloat64 = .finite false reference.value →
        Float64.round false (actual.value / reference.value)
          = .finite false (actual.value / reference.value) →
        Float64.round false (actual.value / reference.value * 100)
          = .finite false (actual.value / reference.value * 100) →
        Ui.tooltipPercent (Ui.createCPUBar actual res)
          = some (.finite false (actual.value / reference.value * 100)))
    ∧ (∀ reference : Quantity,
        reference = (if res.requests.Memory.value ≠ 0 then res.requests.Memory
          else res.limits.Memory) →
        reference.value ≠ 0 →
        (∃ s, actual.AsApproximateFloat64 = .inf s) →
        (∃ t, reference.AsApproximateFloat64 = .inf t) →
        Ui.tooltipPercent (Ui.createMemoryBar actual res) = some .nan)
    ∧ (∀ reference : Quantity,
        reference = (if res.requests.Cpu.value ≠ 0 then res.requests.Cpu
          else res.limits.Cpu) →
        reference.value ≠ 0 →
        (∃ s, actual.AsApproximateFloat64 = .inf s) →
        (∃ t, reference.AsApproximateFloat64 = .inf t) →
        Ui.tooltipPercent (Ui.createCPUBar actual res) = some .nan)
    ∧ Ui.tooltipPercent (Ui.createMemoryBar (Quantity.exact (128 * Mi))
          ⟨⟨none, some (Quantity.exact 0)⟩, ⟨none, some (Quantity.exact (256 * Mi))⟩⟩)
        = some (.finite false 50)
    ∧ Ui.fillFraction (Ui.createMemoryBar (Quantity.exact (128 * Mi))
          ⟨⟨none, some (Quantity.exact 0)⟩, ⟨none, some (Quantity.exact (256 * Mi))⟩⟩)
        = some (.finite false (1 / 2))
    ∧ Ui.tooltipPercent (Ui.createMemoryBar (Quantity.exact (300 * Mi))
          ⟨⟨none, some (Quantity.exact (512 * Mi))⟩, ⟨none, some (Quantity.exact (256 * Mi))⟩⟩)
        = some (.finite false (1171875 / 10000))
    ∧ Ui.createMemoryBar (Quantity.exact (1 * Mi))
          ⟨⟨none, some (Quantity.exact 0)⟩, ⟨none, some (Quantity.exact 0)⟩⟩ = Widget.box none []
    ∧ Ui.createCPUBar (Quantity.exact (1 * Mi)) ⟨⟨none, none⟩, ⟨none, none⟩⟩
        = Widget.box none [] := by
  refine ⟨(createBar_closed_form actual res).1, (createBar_closed_form actual res).2, ?_,
    ?_, ?_, ?_, ?_, ?_, ?_, ?_, ?_⟩
  · intro reference href _ hr ha hre hq hp
    rw [(createBar_closed_form actual res).1, ← href, if_neg hr.ne']
    simp [Ui.tooltipPercent, ha, hre, Float64.div, hr.ne', Float64.mul, hq, hp]
  · intro reference href _ hr ha hre hq hp
    rw [(createBar_closed_form actual res).2, ← href, if_neg hr.ne']
    simp [Ui.tooltipPercent, ha, hre, Float64.div, hr.ne', Float64.mul, hq, hp]
  · rintro reference href h0 ⟨s, hs⟩ ⟨t, ht⟩
    rw [(createBar_closed_form actual res).1, ← href, if_neg h0]
    simp [Ui.tooltipPercent, hs, ht, Float64.div, Float64.mul]
  · rintro reference href h0 ⟨s, hs⟩ ⟨t, ht⟩
    rw [(createBar_closed_form actual res).2, ← href, if_neg h0]
    simp [Ui.tooltipPercent, hs, ht, Float64.div, Float64.mul]
  · norm_num [Ui.createMemoryBar, Ui.tooltipPercent, Quantity.IsZero, ResourceList.Memory,
      Mi, Quantity.exact, Float64.div, Float64.mul, float64_round_half, float64_round_fifty]
  · norm_num [Ui.createMemoryBar, Ui.fillFraction, Quantity.IsZero, ResourceList.Memory,
      Mi, Quantity.exact, Float64.div, Float64.min, Float64.before, float64_round_half]
  · norm_num [Ui.createMemoryBar, Ui.tooltipPercent, Quantity.IsZero, ResourceList.Memory,
      Mi, Quantity.exact, Float64.div, Float64.mul, float64_round_75_64,
      float64_round_1875_16]
  · simp [Ui.createMemoryBar, Quantity.IsZero, ResourceList.Memory, Quantity.exact]
  · simp [Ui.createCPUBar, Quantity.IsZero, ResourceList.Cpu, Quantity.exact]

/-- C1, amended, at a concrete input: `128Mi` over a request of `256Mi`, both exact. -/
theorem createBar_reference_and_percent_witness :
    Ui.tooltipPercent (Ui.createMemoryBar (Quantity.exact (128 * Mi))
        ⟨⟨none, some (Quantity.exact 0)⟩, ⟨none, some (Quantity.exact (256 * Mi))⟩⟩)
      = some (.finite false ((Quantity.exact (128 * Mi)).value
          / (Quantity.exact (256 * Mi)).value * 100)) :=
  (createBar_reference_and_percent (Quantity.exact (128 * Mi))
    ⟨⟨none, some (Quantity.exact 0)⟩, ⟨none, some (Quantity.exact (256 * Mi))⟩⟩).2.2.1
    (Quantity.exact (256 * Mi))
    (by norm_num [ResourceList.Memory, Quantity.exact, Mi])
    (by norm_num [Quantity.exact, Mi]) (by norm_num [Quantity.exact, Mi])
    (by norm_num [Quantity.exact, Mi]) (by norm_num [Quantity.exact, Mi])
    (by norm_num [Quantity.exact, Mi, float64_round_half])
    (by norm_num [Quantity.exact, Mi, float64_round_fifty])

/-- The Go `min(x, 1)`: NaN for NaN, otherwise a value that is at most one. -/
theorem float64_min_one (x : Float64) :
    (x = .nan → Float64.min x (.finite false 1) = .nan)
    ∧ (x ≠ .nan → Float64.AtMostOne (Float64.min x (.finite false 1))) := by
  constructor
  · rintro rfl; rfl
  · intro hx
    cases x with
    | nan => exact absurd rfl hx
    | inf s => cases s <;> simp [Float64.min, Float64.before, Float64.AtMostOne]
    | finite s m =>
      by_cases h : (1 : ℚ) < (if s then -m else m)
      · simp [Float64.min, Float64.before, Float64.AtMostOne, h]
      · simp [Float64.min, Float64.before, Float64.AtMostOne, h]
        exact not_lt.1 h

/-- The quotient of two non-negative floats is NaN or non-negative. -/
theorem float64_div_nonneg (a r : Float64) (ha : a.NonNegative) (hr : r.NonNegative) :
    Float64.div a r = .nan ∨ (Float64.div a r).NonNegative := by
  cases a with
  | nan => exact absurd ha (by simp [Float64.NonNegative])
  | inf s =>
    cases r with
    | nan => exact absurd hr (by simp [Float64.NonNegative])
    | inf t => exact Or.inl rfl
    | finite t n =>
      simp only [Float64.NonNegative] at ha hr
      subst ha
      obtain ⟨rfl, _⟩ := hr
      exact Or.inr (by simp [Float64.div, Float64.NonNegative])
  | finite s m =>
    simp only [Float64.NonNegative] at ha
    obtain ⟨rfl, hm⟩ := ha
    cases r with
    | nan => exact absurd hr (by simp [Float64.NonNegative])
    | inf t =>
      simp only [Float64.NonNegative] at hr
      subst hr
      exact Or.inr (by simp [Float64.div, Float64.NonNegative])
    | finite t n =>
      simp only [Float64.NonNegative] at hr
      obtain ⟨rfl, hn⟩ := hr
      by_cases hn0 : n = 0
      · by_cases hm0 : m = 0
        · exact Or.inl (by simp [Float64.div, hn0, hm0])
        · exact Or.inr (by simp [Float64.div, hn0, hm0, Float64.NonNegative])
      · right
        simp only [Float64.div, hn0, if_false, Bool.xor_false]
        rcases float64_round_cases false (m / n) (div_nonneg hm hn) with h | ⟨x, hx, h⟩
        · rw [h]; simp [Float64.NonNegative]
        · rw [h]; exact ⟨rfl, hx⟩

/-- The Go `min(x, 1)` of a non-negative float lies in `[0,1]`. -/
theorem float64_min_one_unit (x : Float64) (hx : x.NonNegative) :
    Float64.InUnitInterval (Float64.min x (.finite false 1)) := by
  cases x with
  | nan => exact absurd hx (by simp [Float64.NonNegative])
  | inf s =>
    simp only [Float64.NonNegative] at hx
    subst hx
    simp [Float64.min, Float64.before, Float64.InUnitInterval]
  | finite s m =>
    simp only [Float64.NonNegative] at hx
    obtain ⟨rfl, hm⟩ := hx
    by_cases h : (1 : ℚ) < m
    · simp [Float64.min, Float64.before, Float64.InUnitInterval, h]
    · simp [Float64.min, Float64.before, Float64.InUnitInterval, h]
      exact ⟨hm, not_lt.1 h⟩

/-- C2, counterexample: a negative actual quantity (`ParseQuantity` accepts `-1`) over a
request of `1` sets the level bar to `-1`, outside `[0,1]`, for both bars; an actual
quantity and a request of `1e400` each, neither negative, set it to NaN. -/
theorem fillFraction_negative_counterexample :
    Ui.fillFraction (Ui.createMemoryBar (Quantity.exact (-1))
        ⟨⟨none, none⟩, ⟨none, some (Quantity.exact 1)⟩⟩) = some (.finite true 1)
    ∧ Ui.fillFraction (Ui.createCPUBar (Quantity.exact (-1))
        ⟨⟨none, none⟩, ⟨some (Quantity.exact 1), none⟩⟩) = some (.finite true 1)
    ∧ (Float64.finite true 1).value? = some (-1)
    ∧ ¬ Float64.InUnitInterval (.finite true 1)
    ∧ Ui.fillFraction (Ui.createMemoryBar ⟨10 ^ 400, .inf false⟩
        ⟨⟨none, none⟩, ⟨none, some ⟨10 ^ 400, .inf false⟩⟩⟩) = some .nan
    ∧ ¬ Float64.InUnitInterval .nan := by
  refine ⟨?_, ?_, ?_, ?_, ?_, ?_⟩
  · norm_num [Ui.createMemoryBar, Ui.fillFraction, Quantity.IsZero, ResourceList.Memory,
      Quantity.exact, Float64.div, float64_round_one, Float64.min, Float64.before]
  · norm_num [Ui.createCPUBar, Ui.fillFraction, Quantity.IsZero, ResourceList.Cpu,
      Quantity.exact, Float64.div, float64_round_one, Float64.min, Float64.before]
  · norm_num [Float64.value?]
  · norm_num [Float64.InUnitInterval]
  · simp [Ui.createMemoryBar, Ui.fillFraction, Quantity.IsZero, ResourceList.Memory,
      Float64.div, Float64.min]
  · simp [Float64.InUnitInterval]

/-- C2, amended: whenever a bar is shown (request or limit non-zero) the value set on the
level bar is the Go `min(percent, 1)` of the `float64` quotient `percent` of the floats of
the actual quantity and of the reference.  It is NaN when `percent` is NaN; otherwise it
is `-Inf` or a finite value not above `1`; and it lies in `[0,1]` when the two floats are
non-negative and `percent` is not NaN. -/
theorem fillFraction_le_one (actual : Quantity) (res : ResourceRequirements) :
    ((res.requests.Memory.value ≠ 0 ∨ res.limits.Memory.value ≠ 0) →
      ∃ reference v, reference = (if res.requests.Memory.value ≠ 0 then res.requests.Memory
            else res.limits.Memory)
        ∧ Ui.fillFraction (Ui.createMemoryBar actual res) = some v
        ∧ v = Float64.min (Float64.div actual.AsApproximateFloat64
              reference.AsApproximateFloat64) (.finite false 1)
        ∧ (Float64.div actual.AsApproximateFloat64 reference.AsApproximateFloat64 = .nan →
            v = .nan)
        ∧ ((∃ s, actual.AsApproximateFloat64 = .inf s) →
            (∃ t, reference.AsApproximateFloat64 = .inf t) → v = .nan)
        ∧ (Float64.div actual.AsApproximateFloat64 reference.AsApproximateFloat64 ≠ .nan →
            v.AtMostOne)
        ∧ (actual.AsApproximateFloat64.NonNegative →
            reference.AsApproximateFloat64.NonNegative →
            Float64.div actual.AsApproximateFloat64 reference.AsApproximateFloat64 ≠ .nan →
            v.InUnitInterval))
    ∧ ((res.requests.Cpu.value ≠ 0 ∨ res.limits.Cpu.value ≠ 0) →
      ∃ reference v, reference = (if res.requests.Cpu.value ≠ 0 then res.requests.Cpu
            else res.limits.Cpu)
        ∧ Ui.fillFraction (Ui.createCPUBar actual res) = some v
        ∧ v = Float64.min (Float64.div actual.AsApproximateFloat64
              reference.AsApproximateFloat64) (.finite false 1)
        ∧ (Float64.div actual.AsApproximateFloat64 reference.AsApproximateFloat64 = .nan →
            v = .nan)
        ∧ ((∃ s, actual.AsApproximateFloat64 = .inf s) →
            (∃ t, reference.AsApproximateFloat64 = .inf t) → v = .nan)
        ∧ (Float64.div actual.AsApproximateFloat64 reference.AsApproximateFloat64 ≠ .nan →
            v.AtMostOne)
        ∧ (actual.AsApproximateFloat64.NonNegative →
            reference.AsApproximateFloat64.NonNegative →
            Float64.div actual.AsApproximateFloat64 reference.AsApproximateFloat64 ≠ .nan →
            v.InUnitInterval)) := by
  have key : ∀ a r : Float64,
      (Float64.div a r = .nan → Float64.min (Float64.div a r) (.finite false 1) = .nan)
      ∧ ((∃ s, a = .inf s) → (∃ t, r = .inf t) →
          Float64.min (Float64.div a r) (.finite false 1) = .nan)
      ∧ (Float64.div a r ≠ .nan →
          (Float64.min (Float64.div a r) (.finite false 1)).AtMostOne)
      ∧ (a.NonNegative → r.NonNegative → Float64.div a r ≠ .nan →
          (Float64.min (Float64.div a r) (.finite false 1)).InUnitInterval) := by
    intro a r
    refine ⟨(float64_min_one _).1, ?_, (float64_min_one _).2, ?_⟩
    · rintro ⟨s, rfl⟩ ⟨t, rfl⟩
      rfl
    intro ha hr hne
    rcases float64_div_nonneg a r ha hr with h | h
    · exact absurd h hne
    · exact float64_min_one_unit _ h
  constructor
  · intro h
    have href : (if res.requests.Memory.value ≠ 0 then res.requests.Memory
        else res.limits.Memory).value ≠ 0 := by
      by_cases h1 : res.requests.Memory.value = 0
      · rcases h with h | h
        · exact absurd h1 h
        · simpa [h1] using h
      · simp [h1]
    refine ⟨_, _, rfl, ?_, rfl, key _ _⟩
    rw [(createBar_closed_form actual res).1, if_neg href]
    rfl
  · intro h
    have href : (if res.requests.Cpu.value ≠ 0 then res.requests.Cpu
        else res.limits.Cpu).value ≠ 0 := by
      by_cases h1 : res.requests.Cpu.value = 0
      · rcases h with h | h
        · exact absurd h1 h
        · simpa [h1] using h
      · simp [h1]
    refine ⟨_, _, rfl, ?_, rfl, key _ _⟩
    rw [(createBar_closed_form actual res).2, if_neg href]
    rfl

/-- C2, amended, at a concrete input: `300Mi` over a request of `256Mi`, both exact; the
quotient is the binary64 number `75/64` and the bar is set to a value in `[0,1]`. -/
theorem fillFraction_le_one_witness :
    ∃ reference v, reference = (if (Quantity.exact (256 * Mi)).value ≠ 0
          then Quantity.exact (256 * Mi) else Quantity.exact (512 * Mi))
      ∧ Ui.fillFraction (Ui.createMemoryBar (Quantity.exact (300 * Mi))
          ⟨⟨none, some (Quantity.exact (512 * Mi))⟩, ⟨none, some (Quantity.exact (256 * Mi))⟩⟩)
        = some v
      ∧ v.AtMostOne ∧ v.InUnitInterval := by
  obtain ⟨reference, v, href, hv, _, _, _, hle, hunit⟩ :=
    (fillFraction_le_one (Quantity.exact (300 * Mi))
      ⟨⟨none, some (Quantity.exact (512 * Mi))⟩, ⟨none, some (Quantity.exact (256 * Mi))⟩⟩).1
      (Or.inl (by norm_num [ResourceList.Memory, Quantity.exact, Mi]))
  have hq : Float64.div (Quantity.exact (300 * Mi)).AsApproximateFloat64
      reference.AsApproximateFloat64 = .finite false (75 / 64) := by
    rw [href]
    norm_num [ResourceList.Memory, Quantity.exact, Mi, Float64.div, float64_round_75_64]
  refine ⟨reference, v, href, hv, hle (by rw [hq]; decide), hunit ?_ ?_ (by rw [hq]; decide)⟩
  · norm_num [Quantity.exact, Mi, Float64.NonNegative]
  · rw [href]
    norm_num [ResourceList.Memory, Quantity.exact, Mi, Float64.NonNegative]

/-! ### Expansion keys -/

theorem digitValue_digitChar (k : Nat) (h : k < 10) : digitValue (Nat.digitChar k) = k := by
  interval_cases k <;> decide

theorem foldl_toDigitsCore (fuel : Nat) : ∀ (n : Nat) (ds : List Char), n < fuel →
    (Nat.toDigitsCore 10 fuel n ds).foldl (fun a c => a * 10 + digitValue c) 0
      = ds.foldl (fun a c => a * 10 + digitValue c) n := by
  induction fuel with
  | zero => intro n ds h; omega
  | succ fuel ih =>
    intro n ds h
    simp only [Nat.toDigitsCore]
    by_cases h0 : n / 10 = 0
    · simp only [h0, if_true, List.foldl_cons, Nat.zero_mul, Nat.zero_add]
      rw [digitValue_digitChar _ (Nat.mod_lt _ (by decide))]
      congr 1
      omega
    · simp only [h0, if_false]
      rw [ih (n / 10) _ (by omega)]
      simp only [List.foldl_cons]
      rw [digitValue_digitChar _ (Nat.mod_lt _ (by decide))]
      congr 1
      omega

/-- The decimal rendering of a natural number determines it. -/
theorem toString_nat_injective (m n : Nat) (h : toString m = toString n) : m = n := by
  have hm := foldl_toDigitsCore (m + 1) m [] (by omega)
  have hn := foldl_toDigitsCore (n + 1) n [] (by omega)
  simp only [List.foldl_nil] at hm hn
  have h' : Nat.toDigits 10 m = Nat.toDigits 10 n := by
    have : (Nat.toDigits 10 m).asString = (Nat.toDigits 10 n).asString := h
    exact congrArg String.data this
  unfold Nat.toDigits at h'
  rw [← hm, ← hn, h']

theorem string_append_right_cancel (a b c : String) (h : a ++ c = b ++ c) : a = b := by
  have := congrArg String.data h
  simp only [String.data_append] at this
  exact String.ext (List.append_cancel_right this)

theorem string_append_left_cancel (a b c : String) (h : c ++ a = c ++ b) : a = b := by
  have := congrArg String.data h
  simp only [String.data_append] at this
  exact String.ext (List.append_cancel_left this)

theorem ui_expandedId_eq_iff (d : Ui.DetailView) (a b : String) (level : Nat) :
    Ui.expandedId d a level = Ui.expandedId d b level ↔ a = b := by
  constructor
  · intro h
    simp only [Ui.expandedId, String.intercalate, String.intercalate.go] at h
    have h1 := string_append_right_cancel _ _ _ h
    have h2 := string_append_right_cancel _ _ _ h1
    exact string_append_left_cancel _ _ _ h2
  · rintro rfl; rfl

theorem internalUi_expandedId_eq_iff (d : InternalUi.DetailView) (level i j : Nat) :
    InternalUi.expandedId d level i = InternalUi.expandedId d level j ↔ i = j := by
  constructor
  · intro h
    simp only [InternalUi.expandedId] at h
    exact toString_nat_injective _ _ (string_append_left_cancel _ _ _ h)
  · rintro rfl; rfl

/-- C3, counterexample: in one view of one object, level-1 collapsible rows at different
positions share their key.  In `src/ui` the rows named `Labels` of two different sections
(and two rows of that name in one section) get the key `..-Labels-1`; in
`src/internal/ui` the first rows of two different sections get the key `..-1-0`.
Expanding one of them stores `true` under the key the other one reads. -/
theorem expandedId_not_unique :
    Ui.expanderIds <$> (Ui.renderObjectProperty (fun _ => none)
        (Ui.NewDetailView ⟨"apps/v1, Resource=deployments", .deployment "7f3a"⟩) 0
        (.mk "Metadata" "" [.mk "Labels" "" [.mk "app" "web" [] none] none] none)).result
      = some ["apps/v1, Resource=deployments-7f3a-Labels-1"]
    ∧ Ui.expanderIds <$> (Ui.renderObjectProperty (fun _ => none)
        (Ui.NewDetailView ⟨"apps/v1, Resource=deployments", .deployment "7f3a"⟩) 0
        (.mk "Template" ""
          [.mk "Labels" "" [.mk "app" "web" [] none] none,
           .mk "Labels" "" [.mk "tier" "front" [] none] none] none)).result
      = some ["apps/v1, Resource=deployments-7f3a-Labels-1",
              "apps/v1, Resource=deployments-7f3a-Labels-1"]
    ∧ (Ui.NewDetailView ⟨"apps/v1, Resource=deployments", .deployment "7f3a"⟩).expanded
        "apps/v1, Resource=deployments-7f3a-Labels-1" = none
    ∧ (Ui.onStateFlagsChanged
        (Ui.NewDetailView ⟨"apps/v1, Resource=deployments", .deployment "7f3a"⟩)
        "apps/v1, Resource=deployments-7f3a-Labels-1" true).expanded
        "apps/v1, Resource=deployments-7f3a-Labels-1" = some true
    ∧ InternalUi.expanderIds (InternalUi.renderObjectProperty
        (InternalUi.NewDetailView (.background 0)
          ⟨.background 0, "apps/v1, Resource=deployments", .deployment "7f3a", ⟨"c"⟩⟩ 0) 0 0
        (.group "Metadata" [.group "Labels" [.text "app" "web" none none] none] none)).widget
      = ["apps/v1, Resource=deployments-1-0"]
    ∧ InternalUi.expanderIds (InternalUi.renderObjectProperty
        (InternalUi.NewDetailView (.background 0)
          ⟨.background 0, "apps/v1, Resource=deployments", .deployment "7f3a", ⟨"c"⟩⟩ 0) 0 1
        (.group "Spec" [.group "Selector" [.text "app" "web" none none] none] none)).widget
      = ["apps/v1, Resource=deployments-1-0"]
    ∧ (InternalUi.onStateFlagsChanged
        (InternalUi.NewDetailView (.background 0)
          ⟨.background 0, "apps/v1, Resource=deployments", .deployment "7f3a", ⟨"c"⟩⟩ 0)
        "apps/v1, Resource=deployments-1-0" true).expanded
        "apps/v1, Resource=deployments-1-0" = some true := by
  refine ⟨by decide, by decide, rfl, by decide, by decide, by decide, by decide⟩

/-- C3, amended: in one view of one object the key of a level-1 collapsible row is
determined by, and determines, the node name in `src/ui` and the index of the node within
its parent in `src/internal/ui`.  Toggling a row stores its state under its own key and
leaves the flag of every row with another name (another index) as it was. -/
theorem expandedId_identifies_name_or_index :
    (∀ (d : Ui.DetailView) (a b : String),
      (Ui.expandedId d a 1 = Ui.expandedId d b 1 ↔ a = b)
      ∧ ∀ v, (Ui.onStateFlagsChanged d (Ui.expandedId d a 1) v).expanded (Ui.expandedId d b 1)
          = if b = a then some v else d.expanded (Ui.expandedId d b 1))
    ∧ (∀ (d : InternalUi.DetailView) (i j : Nat),
      (InternalUi.expandedId d 1 i = InternalUi.expandedId d 1 j ↔ i = j)
      ∧ ∀ v, (InternalUi.onStateFlagsChanged d (InternalUi.expandedId d 1 i) v).expanded
            (InternalUi.expandedId d 1 j)
          = if j = i then some v else d.expanded (InternalUi.expandedId d 1 j)) := by
  refine ⟨fun d a b => ⟨ui_expandedId_eq_iff d a b 1, fun v => ?_⟩,
    fun d i j => ⟨internalUi_expandedId_eq_iff d 1 i j, fun v => ?_⟩⟩
  · simp only [Ui.onStateFlagsChanged, ui_expandedId_eq_iff]
  · simp only [InternalUi.onStateFlagsChanged, internalUi_expandedId_eq_iff]

/-! ### Calls of `renderObjectProperty` -/

theorem ui_render_calls (pq : String → Option Quantity) (d : Ui.DetailView) (level : Nat)
    (n v : String) (c : List Ui.ObjectProperty) (o : Option AnyObject) :
    (Ui.renderObjectProperty pq d level (.mk n v c o)).calls
      = level :: (if level < 3 then (Ui.renderChildren pq d (level + 1) c).calls else []) := by
  simp only [Ui.renderObjectProperty]
  split_ifs <;> first | rfl | omega | skip
  all_goals
    cases c with
    | nil => simp [Ui.renderChildren]
    | cons a as => simp at *

theorem ui_renderChildren_calls (pq : String → Option Quantity) (d : Ui.DetailView) (k : Nat)
    (P : Nat → Prop) (h : ∀ p, ∀ l ∈ (Ui.renderObjectProperty pq d k p).calls, P l) :
    ∀ ps, ∀ l ∈ (Ui.renderChildren pq d k ps).calls, P l := by
  intro ps
  induction ps with
  | nil => simp [Ui.renderChildren]
  | cons p ps ih =>
    rw [Ui.renderChildren]
    have hp := h p
    generalize Ui.renderObjectProperty pq d k p = r at hp
    obtain ⟨calls, res⟩ := r
    cases res with
    | none => simpa using hp
    | some w =>
      intro l hl
      simp only [List.mem_append] at hl
      rcases hl with hl | hl
      · exact hp l hl
      · exact ih l hl

/-- Every call made while `src/ui` renders a node at level `k ≤ 3` has a level in `k..3`. -/
theorem ui_render_calls_le (pq : String → Option Quantity) (d : Ui.DetailView) :
    ∀ (k : Nat), k ≤ 3 →
      ∀ p, ∀ l ∈ (Ui.renderObjectProperty pq d k p).calls, k ≤ l ∧ l ≤ 3 := by
  have h3 : ∀ p, ∀ l ∈ (Ui.renderObjectProperty pq d 3 p).calls, 3 ≤ l ∧ l ≤ 3 := by
    rintro ⟨n, v, c, o⟩ l hl
    rw [ui_render_calls] at hl
    simp at hl
    omega
  have step : ∀ k, k < 3 →
      (∀ p, ∀ l ∈ (Ui.renderObjectProperty pq d (k + 1) p).calls, k + 1 ≤ l ∧ l ≤ 3) →
      ∀ p, ∀ l ∈ (Ui.renderObjectProperty pq d k p).calls, k ≤ l ∧ l ≤ 3 := by
    rintro k hk ih ⟨n, v, c, o⟩ l hl
    rw [ui_render_calls, if_pos hk] at hl
    rcases List.mem_cons.1 hl with rfl | hl
    · omega
    · have := ui_renderChildren_calls pq d (k + 1) _ ih c l hl
      omega
  have h2 := step 2 (by omega) h3
  have h1 := step 1 (by omega) h2
  have h0 := step 0 (by omega) h1
  intro k hk
  interval_cases k
  · exact h0
  · exact h1
  · exact h2
  · exact h3

theorem internalUi_render_calls (d : InternalUi.DetailView) (level index : Nat)
    (p : InternalUi.Property) :
    (InternalUi.renderObjectProperty d level index p).calls
      = level :: (match p with
          | .text _ _ _ _ => []
          | .group _ c _ =>
            if level < 3 then (InternalUi.renderChildren d (level + 1) 0 c).calls else []) := by
  cases p with
  | text n v r h =>
    simp only [InternalUi.renderObjectProperty]
    split_ifs <;> first | rfl | (cases r <;> rfl)
  | group n c h =>
    simp only [InternalUi.renderObjectProperty]
    split_ifs <;> first | rfl | omega

theorem internalUi_renderChildren_calls (d : InternalUi.DetailView) (k : Nat)
    (P : Nat → Prop)
    (h : ∀ i p, ∀ l ∈ (InternalUi.renderObjectProperty d k i p).calls, P l) :
    ∀ ps i, ∀ l ∈ (InternalUi.renderChildren d k i ps).calls, P l := by
  intro ps
  induction ps with
  | nil => simp [InternalUi.renderChildren]
  | cons p ps ih =>
    intro i l hl
    rw [InternalUi.renderChildren] at hl
    simp only [List.mem_append] at hl
    rcases hl with hl | hl
    · exact h i p l hl
    · exact ih (i + 1) l hl

/-- Every call made while `src/internal/ui` renders a node at level `k ≤ 3` has a level
in `k..3`. -/
theorem internalUi_render_calls_le (d : InternalUi.DetailView) :
    ∀ (k : Nat), k ≤ 3 →
      ∀ i p, ∀ l ∈ (InternalUi.renderObjectProperty d k i p).calls, k ≤ l ∧ l ≤ 3 := by
  have h3 : ∀ i p, ∀ l ∈ (InternalUi.renderObjectProperty d 3 i p).calls, 3 ≤ l ∧ l ≤ 3 := by
    intro i p l hl
    rw [internalUi_render_calls] at hl
    cases p <;> simp at hl <;> omega
  have step : ∀ k, k < 3 →
      (∀ i p, ∀ l ∈ (InternalUi.renderObjectProperty d (k + 1) i p).calls,
        k + 1 ≤ l ∧ l ≤ 3) →
      ∀ i p, ∀ l ∈ (InternalUi.renderObjectProperty d k i p).calls, k ≤ l ∧ l ≤ 3 := by
    intro k hk ih i p l hl
    rw [internalUi_render_calls] at hl
    cases p with
    | text n v r h =>
      simp at hl
      omega
    | group n c h =>
      simp only [if_pos hk] at hl
      rcases List.mem_cons.1 hl with rfl | hl
      · omega
      · have := internalUi_renderChildren_calls d (k + 1) _ ih c 0 l hl
        omega
  have h2 := step 2 (by omega) h3
  have h1 := step 1 (by omega) h2
  have h0 := step 0 (by omega) h1
  intro k hk
  interval_cases k
  · exact h0
  · exact h1
  · exact h2
  · exact h3

/-- C5: rendering a property tree from level 0 is a total function (it terminates on
every tree, with a widget or with a failed type assertion), and every call of
`renderObjectProperty` it makes has level 0, 1, 2 or 3: the outermost call has level 0 and
all the calls below it a level in `1..3`, in `src/ui` and in `src/internal/ui`.  This
holds for every tree, in particular for the trees of at most 4 levels whose level-3 nodes
have no children.  A childless level-1 node of `src/ui`, which falls through to the
level-2 case, makes no recursive call. -/
theorem renderObjectProperty_levels_le_three :
    (∀ (pq : String → Option Quantity) (d : Ui.DetailView) (prop : Ui.ObjectProperty),
      ∃ rest, (Ui.renderObjectProperty pq d 0 prop).calls = 0 :: rest
        ∧ ∀ l ∈ rest, 1 ≤ l ∧ l ≤ 3)
    ∧ (∀ (d : InternalUi.DetailView) (index : Nat) (prop : InternalUi.Property),
      ∃ rest, (InternalUi.renderObjectProperty d 0 index prop).calls = 0 :: rest
        ∧ ∀ l ∈ rest, 1 ≤ l ∧ l ≤ 3)
    ∧ (∀ (pq : String → Option Quantity) (d : Ui.DetailView) (name value : String)
        (object : Option AnyObject),
      (Ui.renderObjectProperty pq d 1 (.mk name value [] object)).calls = [1]) := by
  refine ⟨?_, ?_, ?_⟩
  · rintro pq d ⟨n, v, c, o⟩
    refine ⟨(Ui.renderChildren pq d 1 c).calls, ?_, ?_⟩
    · rw [ui_render_calls]
      simp
    · exact ui_renderChildren_calls pq d 1 _ (ui_render_calls_le pq d 1 (by omega)) c
  · intro d index prop
    rw [internalUi_render_calls]
    refine ⟨_, rfl, ?_⟩
    cases prop with
    | text n v r h => simp
    | group n c h =>
      exact internalUi_renderChildren_calls d 1 _
        (internalUi_render_calls_le d 1 (by omega)) c 0
  · intro pq d name value object
    rw [ui_render_calls]
    simp [Ui.renderChildren]

/-! ### Full rebuild on a new property set -/

theorem ui_extendRow_congr (pq : String → Option Quantity) (d d' : Ui.DetailView)
    (hb : d.behavior = d'.behavior) : Ui.extendRow pq d = Ui.extendRow pq d' := by
  funext w l p
  unfold Ui.extendRow
  rw [hb]

theorem ui_renderChildren_congr (pq : String → Option Quantity) (d d' : Ui.DetailView)
    (k : Nat) (h : ∀ p, Ui.renderObjectProperty pq d k p = Ui.renderObjectProperty pq d' k p) :
    ∀ ps, Ui.renderChildren pq d k ps = Ui.renderChildren pq d' k ps := by
  intro ps
  induction ps with
  | nil => simp [Ui.renderChildren]
  | cons p ps ih => rw [Ui.renderChildren, Ui.renderChildren, h p, ih]

theorem ui_render_congr_step (pq : String → Option Quantity) (d d' : Ui.DetailView)
    (hb : d.behavior = d'.behavior) (he : d.expanded = d'.expanded) (k : Nat)
    (hc : k < 3 → ∀ ps,
      Ui.renderChildren pq d (k + 1) ps = Ui.renderChildren pq d' (k + 1) ps) :
    ∀ p, Ui.renderObjectProperty pq d k p = Ui.renderObjectProperty pq d' k p := by
  rintro ⟨n, v, c, o⟩
  have hid : Ui.expandedId d n k = Ui.expandedId d' n k := by
    unfold Ui.expandedId
    rw [hb]
  simp only [Ui.renderObjectProperty, hid, he, ui_extendRow_congr pq d d' hb]
  split_ifs <;> first | rfl | (rw [hc (by omega)])

/-- `renderObjectProperty` reads only the behaviour and the expansion map of the view. -/
theorem ui_render_congr (pq : String → Option Quantity) (d d' : Ui.DetailView)
    (hb : d.behavior = d'.behavior) (he : d.expanded = d'.expanded) :
    ∀ k p, Ui.renderObjectProperty pq d k p = Ui.renderObjectProperty pq d' k p := by
  have hge : ∀ k, 3 ≤ k → ∀ p,
      Ui.renderObjectProperty pq d k p = Ui.renderObjectProperty pq d' k p :=
    fun k hk => ui_render_congr_step pq d d' hb he k (fun h => absurd h (by omega))
  have h2 := ui_render_congr_step pq d d' hb he 2
    (fun _ => ui_renderChildren_congr pq d d' 3 (hge 3 (le_refl 3)))
  have h1 := ui_render_congr_step pq d d' hb he 1
    (fun _ => ui_renderChildren_congr pq d d' 2 h2)
  have h0 := ui_render_congr_step pq d d' hb he 0
    (fun _ => ui_renderChildren_congr pq d d' 1 h1)
  intro k
  match k with
  | 0 => exact h0
  | 1 => exact h1
  | 2 => exact h2
  | k + 3 => exact hge (k + 3) (by omega)

theorem ui_renderSections_congr (pq : String → Option Quantity) (d d' : Ui.DetailView)
    (hb : d.behavior = d'.behavior) (he : d.expanded = d'.expanded) :
    ∀ ps, Ui.renderSections pq d ps = Ui.renderSections pq d' ps := by
  intro ps
  induction ps with
  | nil => rfl
  | cons p ps ih => rw [Ui.renderSections, Ui.renderSections, ui_render_congr pq d d' hb he, ih]

theorem ui_appendGroups_eq (pq : String → Option Quantity) :
    ∀ (props : List Ui.ObjectProperty) (d : Ui.DetailView),
      Ui.appendGroups pq d props = (Ui.renderSections pq d props).map fun ws =>
        { d with groups := d.groups ++ Ui.allocate d.allocated ws
                 allocated := d.allocated + ws.length } := by
  intro props
  induction props with
  | nil => intro d; simp [Ui.appendGroups, Ui.renderSections, Ui.allocate]
  | cons p ps ih =>
    intro d
    rw [Ui.appendGroups, Ui.renderSections]
    cases hres : (Ui.renderObjectProperty pq d 0 p).result with
    | none => rfl
    | some w =>
      cases w with
      | preferencesGroup t c =>
        simp only []
        rw [ih, ui_renderSections_congr pq
          { d with
            groups := d.groups ++ [⟨d.allocated, .preferencesGroup t c⟩]
            allocated := d.allocated + 1 } d rfl rfl]
        cases Ui.renderSections pq d ps with
        | none => rfl
        | some ws =>
          simp only [Option.map_some', Ui.allocate, List.length_cons, List.append_assoc,
            List.singleton_append, Nat.add_assoc, Nat.add_comm 1]
      | _ => rfl

theorem ui_foldl_add (gs page : List Ui.GroupRef) :
    gs.foldl Ui.PreferencesPage.Add page = page ++ gs := by
  induction gs generalizing page with
  | nil => simp
  | cons g gs ih => simp [List.foldl_cons, ih, Ui.PreferencesPage.Add]

theorem ui_foldl_remove (gs page : List Ui.GroupRef) :
    gs.foldl Ui.PreferencesPage.Remove page
      = page.filter fun x => gs.all fun g => x.ref != g.ref := by
  induction gs generalizing page with
  | nil => simp
  | cons g gs ih =>
    simp only [List.foldl_cons, ih, Ui.PreferencesPage.Remove, List.filter_filter, List.all_cons]
    congr 1
    funext x
    exact Bool.and_comm _ _

/-- Removing every tracked group from a page that holds exactly the tracked groups
leaves it empty. -/
theorem ui_foldl_remove_self (page : List Ui.GroupRef) :
    page.foldl Ui.PreferencesPage.Remove page = [] := by
  rw [ui_foldl_remove, List.filter_eq_nil_iff]
  intro x hx
  simp only [List.all_eq_true, bne_iff_ne, ne_eq, not_forall]
  exact ⟨x, hx, fun h => h rfl⟩

theorem ui_allocate_widget (a : Nat) (ws : List Widget) :
    (Ui.allocate a ws).map (fun g => some g.widget) = ws.map some := by
  induction ws generalizing a with
  | nil => rfl
  | cons w ws ih => simp [Ui.allocate, ih]

theorem ui_renderSections_fields (pq : String → Option Quantity) (d : Ui.DetailView)
    (page gs : List Ui.GroupRef) (a : Nat) (ps : List Ui.ObjectProperty) :
    Ui.renderSections pq
      { behavior := d.behavior, prefPage := page, groups := gs, expanded := d.expanded,
        allocated := a } ps = Ui.renderSections pq d ps :=
  ui_renderSections_congr pq
    { behavior := d.behavior, prefPage := page, groups := gs, expanded := d.expanded,
      allocated := a } d rfl rfl ps

theorem ui_render_zero_result (pq : String → Option Quantity) (d : Ui.DetailView)
    (n v : String) (c : List Ui.ObjectProperty) (o : Option AnyObject) :
    (Ui.renderObjectProperty pq d 0 (.mk n v c o)).result
      = (Ui.renderChildren pq d 1 c).result.map fun ws => Widget.preferencesGroup n ws := by
  simp [Ui.renderObjectProperty]

theorem ui_renderSections_some (pq : String → Option Quantity) (d : Ui.DetailView) :
    ∀ props : List Ui.ObjectProperty,
      (∀ p ∈ props, (Ui.renderObjectProperty pq d 0 p).result.isSome = true) →
      ∃ ws, Ui.renderSections pq d props = some ws ∧
        ws.map some = props.map fun p => (Ui.renderObjectProperty pq d 0 p).result := by
  intro props
  induction props with
  | nil => intro _; exact ⟨[], rfl, rfl⟩
  | cons p ps ih =>
    intro h
    obtain ⟨ws, hws, hmap⟩ := ih fun q hq => h q (List.mem_cons_of_mem _ hq)
    have hp := h p (List.mem_cons_self _ _)
    obtain ⟨n, v, c, o⟩ := p
    rw [ui_render_zero_result] at hp
    cases hc : (Ui.renderChildren pq d 1 c).result with
    | none => simp [hc] at hp
    | some kids =>
      refine ⟨Widget.preferencesGroup n kids :: ws, ?_, ?_⟩
      · simp [Ui.renderSections, ui_render_zero_result, hc, hws]
      · simp [ui_render_zero_result, hc, hmap]

/-- One emission of a property set in `src/ui`, when every rendering completes. -/
theorem ui_onPropertiesChange_rebuild (pq : String → Option Quantity) (d : Ui.DetailView)
    (props : List Ui.ObjectProperty) (htracked : d.groups = d.prefPage)
    (hrender : ∀ p ∈ props, (Ui.renderObjectProperty pq d 0 p).result.isSome = true) :
    ∃ d', Ui.onPropertiesChange pq d props = some d'
      ∧ d'.prefPage.map (fun g => some g.widget)
          = props.map (fun p => (Ui.renderObjectProperty pq d 0 p).result)
      ∧ d'.groups = d'.prefPage
      ∧ d'.behavior = d.behavior ∧ d'.expanded = d.expanded := by
  obtain ⟨ws, hws, hmap⟩ := ui_renderSections_some pq d props hrender
  refine ⟨{ d with
      prefPage := Ui.allocate d.allocated ws
      groups := Ui.allocate d.allocated ws
      allocated := d.allocated + ws.length }, ?_, ?_, rfl, rfl, rfl⟩
  · simp only [Ui.onPropertiesChange, ui_appendGroups_eq, ui_renderSections_fields, hws,
      Option.map_some', htracked, ui_foldl_remove_self, ui_foldl_add, List.nil_append]
  · simp only []
    rw [← hmap, ui_allocate_widget]

theorem internalUi_renderChildren_congr (d d' : InternalUi.DetailView) (k : Nat)
    (h : ∀ i p, InternalUi.renderObjectProperty d k i p
      = InternalUi.renderObjectProperty d' k i p) :
    ∀ ps i, InternalUi.renderChildren d k i ps = InternalUi.renderChildren d' k i ps := by
  intro ps
  induction ps with
  | nil => intro i; simp [InternalUi.renderChildren]
  | cons p ps ih =>
    intro i
    rw [InternalUi.renderChildren, InternalUi.renderChildren, h i p, ih]

theorem internalUi_render_congr_step (d d' : InternalUi.DetailView)
    (hb : d.behavior = d'.behavior) (he : d.expanded = d'.expanded) (k : Nat)
    (hc : k < 3 → ∀ ps i,
      InternalUi.renderChildren d (k + 1) i ps = InternalUi.renderChildren d' (k + 1) i ps) :
    ∀ i p, InternalUi.renderObjectProperty d k i p
      = InternalUi.renderObjectProperty d' k i p := by
  intro i p
  have hid : InternalUi.expandedId d k i = InternalUi.expandedId d' k i := by
    unfold InternalUi.expandedId
    rw [hb]
  cases p with
  | text n v r h => simp only [InternalUi.renderObjectProperty]
  | group n c h =>
    simp only [InternalUi.renderObjectProperty, hid, he]
    split_ifs <;> first | rfl | (rw [hc (by omega)])

/-- `renderObjectProperty` reads only the behaviour and the expansion map of the view. -/
theorem internalUi_render_congr (d d' : InternalUi.DetailView)
    (hb : d.behavior = d'.behavior) (he : d.expanded = d'.expanded) :
    ∀ k i p, InternalUi.renderObjectProperty d k i p
      = InternalUi.renderObjectProperty d' k i p := by
  have hge : ∀ k, 3 ≤ k → ∀ i p,
      InternalUi.renderObjectProperty d k i p = InternalUi.renderObjectProperty d' k i p :=
    fun k hk => internalUi_render_congr_step d d' hb he k (fun h => absurd h (by omega))
  have h2 := internalUi_render_congr_step d d' hb he 2
    (fun _ => internalUi_renderChildren_congr d d' 3 (hge 3 (le_refl 3)))
  have h1 := internalUi_render_congr_step d d' hb he 1
    (fun _ => internalUi_renderChildren_congr d d' 2 h2)
  have h0 := internalUi_render_congr_step d d' hb he 0
    (fun _ => internalUi_renderChildren_congr d d' 1 h1)
  intro k
  match k with
  | 0 => exact h0
  | 1 => exact h1
  | 2 => exact h2
  | k + 3 => exact hge (k + 3) (by omega)

theorem internalUi_renderSections_congr (d d' : InternalUi.DetailView)
    (hb : d.behavior = d'.behavior) (he : d.expanded = d'.expanded) :
    ∀ ps i, InternalUi.renderSections d i ps = InternalUi.renderSections d' i ps := by
  intro ps
  induction ps with
  | nil => intro i; rfl
  | cons p ps ih =>
    intro i
    rw [InternalUi.renderSections, InternalUi.renderSections,
      internalUi_render_congr d d' hb he, ih]

theorem internalUi_appendGroups_eq :
    ∀ (props : List InternalUi.Property) (d : InternalUi.DetailView) (i : Nat),
      InternalUi.appendGroups d i props = (InternalUi.renderSections d i props).map fun ws =>
        { d with groups := d.groups ++ InternalUi.allocate d.allocated ws
                 prefPage := d.prefPage ++ InternalUi.allocate d.allocated ws
                 allocated := d.allocated + ws.length } := by
  intro props
  induction props with
  | nil =>
    intro d i
    simp [InternalUi.appendGroups, InternalUi.renderSections, InternalUi.allocate]
  | cons p ps ih =>
    intro d i
    rw [InternalUi.appendGroups, InternalUi.renderSections]
    cases hres : (InternalUi.renderObjectProperty d 0 i p).widget with
    | preferencesGroup t c h =>
      simp only []
      rw [ih, internalUi_renderSections_congr
        { d with
          groups := d.groups ++ [⟨d.allocated, .preferencesGroup t c h⟩]
          prefPage := InternalUi.PreferencesPage.Add d.prefPage
            ⟨d.allocated, .preferencesGroup t c h⟩
          allocated := d.allocated + 1 } d rfl rfl]
      cases InternalUi.renderSections d (i + 1) ps with
      | none => rfl
      | some ws =>
        simp only [Option.map_some', InternalUi.allocate, List.length_cons, List.append_assoc,
          List.singleton_append, Nat.add_assoc, Nat.add_comm 1, InternalUi.PreferencesPage.Add]
    | _ => rfl

theorem internalUi_foldl_remove (gs page : List InternalUi.GroupRef) :
    gs.foldl InternalUi.PreferencesPage.Remove page
      = page.filter fun x => gs.all fun g => x.ref != g.ref := by
  induction gs generalizing page with
  | nil => simp
  | cons g gs ih =>
    simp only [List.foldl_cons, ih, InternalUi.PreferencesPage.Remove, List.filter_filter,
      List.all_cons]
    congr 1
    funext x
    exact Bool.and_comm _ _

theorem internalUi_foldl_remove_self (page : List InternalUi.GroupRef) :
    page.foldl InternalUi.PreferencesPage.Remove page = [] := by
  rw [internalUi_foldl_remove, List.filter_eq_nil_iff]
  intro x hx
  simp only [List.all_eq_true, bne_iff_ne, ne_eq, not_forall]
  exact ⟨x, hx, fun h => h rfl⟩

theorem internalUi_allocate_widget (a : Nat) (ws : List InternalUi.Widget) :
    (InternalUi.allocate a ws).map (fun g => g.widget) = ws := by
  induction ws generalizing a with
  | nil => rfl
  | cons w ws ih => simp [InternalUi.allocate, ih]

theorem internalUi_renderSections_fields (d : InternalUi.DetailView)
    (page gs : List InternalUi.GroupRef) (a : Nat) (ps : List InternalUi.Property) (i : Nat) :
    InternalUi.renderSections
      { ctx := d.ctx, behavior := d.behavior, tag := d.tag, prefPage := page, groups := gs,
        expanded := d.expanded, allocated := a } i ps = InternalUi.renderSections d i ps :=
  internalUi_renderSections_congr
    { ctx := d.ctx, behavior := d.behavior, tag := d.tag, prefPage := page, groups := gs,
      expanded := d.expanded, allocated := a } d rfl rfl ps i

theorem internalUi_renderSections_some (d : InternalUi.DetailView) :
    ∀ (props : List InternalUi.Property) (i : Nat), (∀ p ∈ props, p.isGroup = true) →
      InternalUi.renderSections d i props
        = some ((props.enumFrom i).map fun ip =>
            (InternalUi.renderObjectProperty d 0 ip.1 ip.2).widget) := by
  intro props
  induction props with
  | nil => intro i _; rfl
  | cons p ps ih =>
    intro i h
    have hp := h p (List.mem_cons_self _ _)
    cases p with
    | text n v r hk => simp [InternalUi.Property.isGroup] at hp
    | group n c hk =>
      rw [InternalUi.renderSections, ih (i + 1) fun q hq => h q (List.mem_cons_of_mem _ hq)]
      simp [InternalUi.renderObjectProperty, List.enumFrom]

/-- One emission of a property set in `src/internal/ui`, when every top-level property is
a group. -/
theorem internalUi_onPropertiesChange_rebuild (d : InternalUi.DetailView)
    (props : List InternalUi.Property) (htracked : d.groups = d.prefPage)
    (hgroups : ∀ p ∈ props, p.isGroup = true) :
    ∃ d', InternalUi.onPropertiesChange d props = some d'
      ∧ d'.prefPage.map (fun g => g.widget)
          = props.enum.map (fun ip => (InternalUi.renderObjectProperty d 0 ip.1 ip.2).widget)
      ∧ d'.groups = d'.prefPage
      ∧ d'.behavior = d.behavior ∧ d'.expanded = d.expanded := by
  have hws := internalUi_renderSections_some d props 0 hgroups
  refine ⟨{ d with
      prefPage := InternalUi.allocate d.allocated (props.enum.map fun ip =>
        (InternalUi.renderObjectProperty d 0 ip.1 ip.2).widget)
      groups := InternalUi.allocate d.allocated (props.enum.map fun ip =>
        (InternalUi.renderObjectProperty d 0 ip.1 ip.2).widget)
      allocated := d.allocated + props.length }, ?_, ?_, rfl, rfl, rfl⟩
  · simp only [InternalUi.onPropertiesChange, internalUi_appendGroups_eq,
      internalUi_renderSections_fields, hws, Option.map_some', htracked,
      internalUi_foldl_remove_self, List.nil_append, List.enum, List.length_map,
      List.enumFrom_length]
  · simp only []
    rw [internalUi_allocate_widget]

/-- C4, counterexample: with the tracked list equal to the attached sections (both
empty), `onPropertiesChange` leaves no sections at all when a type assertion fails: in
`src/ui` for a Pod whose `Containers` section holds a childless container node, in
`src/internal/ui` for a text property at the top level. -/
theorem onPropertiesChange_fails_counterexample :
    (Ui.onPropertiesChange (fun _ => none)
        (Ui.NewDetailView ⟨"/v1, Resource=pods", .pod ⟨"7f3a", [], []⟩⟩)
        [.mk "Containers" ""
          [.mk "web" "" [] (some (.container ⟨"web", ⟨⟨none, none⟩, ⟨none, none⟩⟩⟩))]
          none]).isNone = true
    ∧ (InternalUi.onPropertiesChange
        (InternalUi.NewDetailView (.background 0)
          ⟨.background 0, "/v1, Resource=pods", .pod ⟨"7f3a", [], []⟩, ⟨"c"⟩⟩ 0)
        [.text "Name" "web" none none]).isNone = true := by
  constructor <;> decide

/-- C4, amended: when the tracked list of groups equals the sections attached to the page
and every top-level rendering completes (in `src/ui` no type assertion fails, in
`src/internal/ui` every top-level property is a group), `onPropertiesChange` detaches all
the previously attached sections and leaves exactly the renderings of the properties at
level 0 attached, in their order, `N` of them, with the tracked list equal to them;
emitting the same property set again leaves the same `N` sections. -/
theorem onPropertiesChange_full_rebuild :
    (∀ (pq : String → Option Quantity) (d : Ui.DetailView) (props : List Ui.ObjectProperty),
      d.groups = d.prefPage →
      (∀ p ∈ props, (Ui.renderObjectProperty pq d 0 p).result.isSome = true) →
      d.groups.foldl Ui.PreferencesPage.Remove d.prefPage = [] ∧
      ∃ d', Ui.onPropertiesChange pq d props = some d'
        ∧ d'.prefPage.map (fun g => some g.widget)
            = props.map (fun p => (Ui.renderObjectProperty pq d 0 p).result)
        ∧ d'.prefPage.length = props.length
        ∧ d'.groups = d'.prefPage
        ∧ ∃ d'', Ui.onPropertiesChange pq d' props = some d''
          ∧ d''.prefPage.map (fun g => some g.widget)
              = d'.prefPage.map (fun g => some g.widget)
          ∧ d''.prefPage.length = props.length
          ∧ d''.groups = d''.prefPage)
    ∧ (∀ (d : InternalUi.DetailView) (props : List InternalUi.Property),
      d.groups = d.prefPage →
      (∀ p ∈ props, p.isGroup = true) →
      d.groups.foldl InternalUi.PreferencesPage.Remove d.prefPage = [] ∧
      ∃ d', InternalUi.onPropertiesChange d props = some d'
        ∧ d'.prefPage.map (fun g => g.widget)
            = props.enum.map
                (fun ip => (InternalUi.renderObjectProperty d 0 ip.1 ip.2).widget)
        ∧ d'.prefPage.length = props.length
        ∧ d'.groups = d'.prefPage
        ∧ ∃ d'', InternalUi.onPropertiesChange d' props = some d''
          ∧ d''.prefPage.map (fun g => g.widget) = d'.prefPage.map (fun g => g.widget)
          ∧ d''.prefPage.length = props.length
          ∧ d''.groups = d''.prefPage) := by
  constructor
  · intro pq d props htracked hrender
    refine ⟨by rw [htracked]; exact ui_foldl_remove_self _, ?_⟩
    obtain ⟨d', h1, h2, h3, hb, he⟩ := ui_onPropertiesChange_rebuild pq d props htracked hrender
    have hlen : d'.prefPage.length = props.length := by
      simpa using congrArg List.length h2
    have hrender' : ∀ p ∈ props, (Ui.renderObjectProperty pq d' 0 p).result.isSome = true := by
      intro p hp
      rw [ui_render_congr pq d' d hb he]
      exact hrender p hp
    obtain ⟨d'', k1, k2, k3, _, _⟩ := ui_onPropertiesChange_rebuild pq d' props h3 hrender'
    refine ⟨d', h1, h2, hlen, h3, d'', k1, ?_, ?_, k3⟩
    · rw [k2, h2]
      exact List.map_congr_left fun p _ => by rw [ui_render_congr pq d' d hb he]
    · simpa using congrArg List.length k2
  · intro d props htracked hgroups
    refine ⟨by rw [htracked]; exact internalUi_foldl_remove_self _, ?_⟩
    obtain ⟨d', h1, h2, h3, hb, he⟩ :=
      internalUi_onPropertiesChange_rebuild d props htracked hgroups
    have hlen : d'.prefPage.length = props.length := by
      simpa using congrArg List.length h2
    obtain ⟨d'', k1, k2, k3, _, _⟩ :=
      internalUi_onPropertiesChange_rebuild d' props h3 hgroups
    refine ⟨d', h1, h2, hlen, h3, d'', k1, ?_, ?_, k3⟩
    · rw [k2, h2]
      exact List.map_congr_left fun p _ => by rw [internalUi_render_congr d' d hb he]
    · simpa using congrArg List.length k2

/-- C4, amended, at concrete inputs: a Pod view with one section attached and tracked
gets the one section of the new property set; so does a view of `src/internal/ui`. -/
theorem onPropertiesChange_full_rebuild_witness :
    (∃ d', Ui.onPropertiesChange (fun _ => none)
        { behavior := ⟨"/v1, Resource=pods", .pod ⟨"7f3a", [⟨"web", true⟩], []⟩⟩,
          prefPage := [⟨0, .preferencesGroup "Metadata" []⟩],
          groups := [⟨0, .preferencesGroup "Metadata" []⟩],
          expanded := fun _ => none, allocated := 1 }
        [.mk "Containers" ""
          [.mk "web" "" [.mk "Image" "nginx" [] none]
            (some (.container ⟨"web", ⟨⟨none, none⟩, ⟨none, none⟩⟩⟩))] none] = some d'
      ∧ d'.prefPage.length = 1 ∧ d'.groups = d'.prefPage)
    ∧ (∃ d', InternalUi.onPropertiesChange
        { ctx := .background 0,
          behavior := ⟨.background 0, "/v1, Resource=pods", .pod ⟨"7f3a", [], []⟩, ⟨"c"⟩⟩,
          tag := 0,
          prefPage := [⟨0, .preferencesGroup "Metadata" [] none⟩],
          groups := [⟨0, .preferencesGroup "Metadata" [] none⟩],
          expanded := fun _ => none, allocated := 1 }
        [.group "Containers" [.group "web" [.text "Image" "nginx" none none] none] none]
          = some d'
      ∧ d'.prefPage.length = 1 ∧ d'.groups = d'.prefPage) :=
  ⟨(onPropertiesChange_full_rebuild.1 (fun _ => none)
      { behavior := ⟨"/v1, Resource=pods", .pod ⟨"7f3a", [⟨"web", true⟩], []⟩⟩,
        prefPage := [⟨0, .preferencesGroup "Metadata" []⟩],
        groups := [⟨0, .preferencesGroup "Metadata" []⟩],
        expanded := fun _ => none, allocated := 1 }
      [.mk "Containers" ""
        [.mk "web" "" [.mk "Image" "nginx" [] none]
          (some (.container ⟨"web", ⟨⟨none, none⟩, ⟨none, none⟩⟩⟩))] none]
      rfl (by decide)).2.imp fun _ h => ⟨h.1, h.2.2.1, h.2.2.2.1⟩,
   (onPropertiesChange_full_rebuild.2
      { ctx := .background 0,
        behavior := ⟨.background 0, "/v1, Resource=pods", .pod ⟨"7f3a", [], []⟩, ⟨"c"⟩⟩,
        tag := 0,
        prefPage := [⟨0, .preferencesGroup "Metadata" [] none⟩],
        groups := [⟨0, .preferencesGroup "Metadata" [] none⟩],
        expanded := fun _ => none, allocated := 1 }
      [.group "Containers" [.group "web" [.text "Image" "nginx" none none] none] none]
      rfl (by decide)).2.imp fun _ h => ⟨h.1, h.2.2.1, h.2.2.2.1⟩⟩

/-! ### Rows and the expansion map -/

/-- What `extendRow` does for each kind of selected object. -/
theorem ui_extendRow_eq (pq : String → Option Quantity) (d : Ui.DetailView) (widget : Widget)
    (level : Nat) (prop : Ui.ObjectProperty) :
    Ui.extendRow pq d widget level prop =
      match d.behavior.selectedObject with
      | .pod selected =>
        (match prop.Object with
        | some (.container object) =>
          (match widget with
          | .expanderRow row =>
            some (.expanderRow
              { row with
                prefixes := row.prefixes ++
                  [Widget.statusIcon (Ui.lookupStatus object.name selected.containerStatuses).ready]
                suffixes := row.suffixes
                  ++ (prop.Children.filterMap fun p =>
                      if p.Name = "Memory" then
                        (pq p.Value).map fun v => Ui.createMemoryBar v object.resources
                      else none)
                  ++ (prop.Children.filterMap fun p =>
                      if p.Name = "CPU" then
                        (pq p.Value).map fun v => Ui.createCPUBar v object.resources
                      else none)
                rows := row.rows ++ [Widget.actionRow
                  { title := "Logs", activatable := true,
                    suffixes := [Widget.image "go-next-symbolic"],
                    activated := [Action.pushLogPage object] }] })
          | _ => none)
        | _ => some widget)
      | .other _ => some widget
      | _ =>
        (match prop.Object with
        | some (.object (.pod object)) =>
          object.conditions.foldl (Ui.podConditionStep object) (some widget)
        | _ => some widget) := by
  unfold Ui.extendRow
  cases d.behavior.selectedObject <;> rfl

theorem ui_podConditionStep_none (object : Pod) (conds : List PodCondition) :
    conds.foldl (Ui.podConditionStep object) none = none := by
  induction conds with
  | nil => rfl
  | cons c cs ih =>
    rw [List.foldl_cons]
    have : Ui.podConditionStep object none c = none := by
      unfold Ui.podConditionStep
      split <;> rfl
    rw [this, ih]

theorem ui_podConditionStep_expanderRow (object : Pod) (r : ExpanderRowData Widget)
    (conds : List PodCondition) (w : Widget)
    (h : conds.foldl (Ui.podConditionStep object) (some (.expanderRow r)) = some w) :
    w = .expanderRow r := by
  induction conds with
  | nil => simpa using h.symm
  | cons c cs ih =>
    rw [List.foldl_cons] at h
    by_cases hc : c.type = ContainersReady
    · have : Ui.podConditionStep object (some (.expanderRow r)) c = none := by
        simp [Ui.podConditionStep, hc]
      rw [this, ui_podConditionStep_none] at h
      cases h
    · have : Ui.podConditionStep object (some (.expanderRow r)) c = some (.expanderRow r) := by
        simp [Ui.podConditionStep, hc]
      rw [this] at h
      exact ih h

/-- `extendRow` never changes the title, the key or the expanded flag of a collapsible
row. -/
theorem ui_extendRow_expanderRow (pq : String → Option Quantity) (d : Ui.DetailView)
    (r : ExpanderRowData Widget) (level : Nat) (prop : Ui.ObjectProperty) (w : Widget)
    (h : Ui.extendRow pq d (.expanderRow r) level prop = some w) :
    ∃ r', w = .expanderRow r' ∧ r'.id = r.id ∧ r'.expanded = r.expanded
      ∧ r'.title = r.title := by
  rw [ui_extendRow_eq] at h
  split at h
  · split at h
    · simp only [Option.some.injEq] at h
      exact ⟨_, h.symm, rfl, rfl, rfl⟩
    · simp only [Option.some.injEq] at h
      exact ⟨r, h.symm, rfl, rfl, rfl⟩
  · simp only [Option.some.injEq] at h
    exact ⟨r, h.symm, rfl, rfl, rfl⟩
  · split at h
    · exact ⟨r, ui_podConditionStep_expanderRow _ r _ w h, rfl, rfl, rfl⟩
    · simp only [Option.some.injEq] at h
      exact ⟨r, h.symm, rfl, rfl, rfl⟩

theorem ui_render_one_result (pq : String → Option Quantity) (d : Ui.DetailView)
    (n v : String) (child : Ui.ObjectProperty) (rest : List Ui.ObjectProperty)
    (o : Option AnyObject) :
    (Ui.renderObjectProperty pq d 1 (.mk n v (child :: rest) o)).result
      = (Ui.renderChildren pq d 2 (child :: rest)).result.bind fun rows =>
          Ui.extendRow pq d
            (Widget.expanderRow
              { title := n, id := Ui.expandedId d n 1, rows := rows,
                expanded := decide (d.expanded (Ui.expandedId d n 1) = some true) })
            1 (.mk n v (child :: rest) o) := by
  simp [Ui.renderObjectProperty]

theorem ui_render_one_expanded (pq : String → Option Quantity) (d : Ui.DetailView)
    (n v : String) (child : Ui.ObjectProperty) (rest : List Ui.ObjectProperty)
    (o : Option AnyObject) (w : Widget)
    (h : (Ui.renderObjectProperty pq d 1 (.mk n v (child :: rest) o)).result = some w) :
    ∃ r, w = .expanderRow r ∧ r.id = Ui.expandedId d n 1
      ∧ r.expanded = decide (d.expanded (Ui.expandedId d n 1) = some true) := by
  rw [ui_render_one_result] at h
  cases hrows : (Ui.renderChildren pq d 2 (child :: rest)).result with
  | none => simp [hrows] at h
  | some rows =>
    rw [hrows] at h
    obtain ⟨r', hw, hid, hexp, _⟩ := ui_extendRow_expanderRow pq d _ 1 _ w h
    exact ⟨r', hw, hid, hexp⟩

/-- C6, counterexample: a StatefulSet view whose expansion map holds `true` under the key
of a level-1 node with a child, the node being a Pod with a `ContainersReady` condition.
The node becomes a collapsible row, `extendRow` fails on it, and no row is rendered, so
the row is not rendered expanded although the map holds `true` under its key. -/
theorem expanderRow_not_rendered_counterexample :
    (Ui.onStateFlagsChanged
        (Ui.NewDetailView ⟨"apps/v1, Resource=statefulsets", .statefulSet "b7c8"⟩)
        "apps/v1, Resource=statefulsets-b7c8-db-0-1" true).expanded
      (Ui.expandedId
        (Ui.onStateFlagsChanged
          (Ui.NewDetailView ⟨"apps/v1, Resource=statefulsets", .statefulSet "b7c8"⟩)
          "apps/v1, Resource=statefulsets-b7c8-db-0-1" true) "db-0" 1) = some true
    ∧ (Ui.renderObjectProperty (fun _ => none)
        (Ui.onStateFlagsChanged
          (Ui.NewDetailView ⟨"apps/v1, Resource=statefulsets", .statefulSet "b7c8"⟩)
          "apps/v1, Resource=statefulsets-b7c8-db-0-1" true) 1
        (.mk "db-0" "Running" [.mk "Node" "worker-2" [] none]
          (some (.object (.pod ⟨"d9e0", [], [⟨"ContainersReady", "False"⟩]⟩))))).result.isNone
      = true := by
  constructor <;> decide

/-- C6, amended: a level-1 collapsible row that is rendered is expanded exactly when the
expansion map holds `true` under the key of the node: in `src/ui` every row the rendering
of a node with children returns has that flag, in `src/internal/ui` the row of every group
has it.  Hence a fresh view renders such
a row collapsed, storing `true` under one key leaves the flag read under any other key as
it was, and the flag of a row depends on the view only through the expansion map and the
key. -/
theorem expanderRow_expanded_iff_stored :
    (∀ (pq : String → Option Quantity) (d : Ui.DetailView) (name value : String)
        (child : Ui.ObjectProperty) (rest : List Ui.ObjectProperty)
        (object : Option AnyObject) (w : Widget),
      (Ui.renderObjectProperty pq d 1 (.mk name value (child :: rest) object)).result = some w →
      ∃ r, w = .expanderRow r ∧ r.id = Ui.expandedId d name 1
        ∧ (r.expanded = true ↔ d.expanded r.id = some true))
    ∧ (∀ (d : InternalUi.DetailView) (index : Nat) (name : String)
        (children : List InternalUi.Property) (hook : Option InternalUi.Hook),
      ∃ r, (InternalUi.renderObjectProperty d 1 index (.group name children hook)).widget
          = .expanderRow r
        ∧ r.id = InternalUi.expandedId d 1 index
        ∧ (r.expanded = true ↔ d.expanded r.id = some true))
    ∧ (∀ (pq : String → Option Quantity) (b : Ui.DetailBehavior) (name value : String)
        (child : Ui.ObjectProperty) (rest : List Ui.ObjectProperty)
        (object : Option AnyObject) (w : Widget),
      (Ui.renderObjectProperty pq (Ui.NewDetailView b) 1
        (.mk name value (child :: rest) object)).result = some w →
      Ui.isExpanded w = false)
    ∧ (∀ (ctx : InternalUi.Context) (b : InternalUi.DetailBehavior) (tag index : Nat)
        (name : String) (children : List InternalUi.Property) (hook : Option InternalUi.Hook),
      InternalUi.isExpanded (InternalUi.renderObjectProperty
        (InternalUi.NewDetailView ctx b tag) 1 index (.group name children hook)).widget = false)
    ∧ (∀ (d : Ui.DetailView) (key other : String), other ≠ key →
      (Ui.onStateFlagsChanged d key true).expanded other = d.expanded other)
    ∧ (∀ (d : InternalUi.DetailView) (key other : String), other ≠ key →
      (InternalUi.onStateFlagsChanged d key true).expanded other = d.expanded other)
    ∧ (∀ (pq : String → Option Quantity) (d d' : Ui.DetailView) (name value value' : String)
        (child child' : Ui.ObjectProperty) (rest rest' : List Ui.ObjectProperty)
        (object object' : Option AnyObject) (w w' : Widget),
      d'.expanded = d.expanded →
      Ui.expandedId d' name 1 = Ui.expandedId d name 1 →
      (Ui.renderObjectProperty pq d 1 (.mk name value (child :: rest) object)).result = some w →
      (Ui.renderObjectProperty pq d' 1
        (.mk name value' (child' :: rest') object')).result = some w' →
      Ui.isExpanded w' = Ui.isExpanded w)
    ∧ (∀ (d d' : InternalUi.DetailView) (index : Nat) (name name' : String)
        (children children' : List InternalUi.Property) (hook hook' : Option InternalUi.Hook),
      d'.expanded = d.expanded →
      InternalUi.expandedId d' 1 index = InternalUi.expandedId d 1 index →
      InternalUi.isExpanded
          (InternalUi.renderObjectProperty d' 1 index (.group name' children' hook')).widget
        = InternalUi.isExpanded
          (InternalUi.renderObjectProperty d 1 index (.group name children hook)).widget) := by
  refine ⟨?_, ?_, ?_, ?_, ?_, ?_, ?_, ?_⟩
  · intro pq d name value child rest object w h
    obtain ⟨r, hw, hid, hexp⟩ := ui_render_one_expanded pq d name value child rest object w h
    exact ⟨r, hw, hid, by rw [hexp, hid]; simp⟩
  · intro d index name children hook
    refine ⟨_, by simp only [InternalUi.renderObjectProperty]; rfl, rfl, ?_⟩
    simp
  · intro pq b name value child rest object w h
    obtain ⟨r, hw, _, hexp⟩ := ui_render_one_expanded pq _ name value child rest object w h
    rw [hw, Ui.isExpanded, hexp]
    simp [Ui.NewDetailView]
  · intro ctx b tag index name children hook
    simp [InternalUi.renderObjectProperty, InternalUi.isExpanded, InternalUi.NewDetailView]
  · intro d key other h
    simp [Ui.onStateFlagsChanged, h]
  · intro d key other h
    simp [InternalUi.onStateFlagsChanged, h]
  · intro pq d d' name value value' child child' rest rest' object object' w w' he hk h h'
    obtain ⟨r, hw, _, hexp⟩ := ui_render_one_expanded pq d name value child rest object w h
    obtain ⟨r', hw', _, hexp'⟩ :=
      ui_render_one_expanded pq d' name value' child' rest' object' w' h'
    rw [hw, hw', Ui.isExpanded, Ui.isExpanded, hexp, hexp', hk, he]
  · intro d d' index name name' children children' hook hook' he hk
    simp [InternalUi.renderObjectProperty, InternalUi.isExpanded, he, hk]

/-- C6, amended, at a concrete input: a Pod view whose map holds `true` under the key of the
container node `web` returns the row of that node, expanded. -/
theorem expanderRow_expanded_iff_stored_witness :
    ∃ w, (Ui.renderObjectProperty (fun _ => none)
            (Ui.onStateFlagsChanged
              (Ui.NewDetailView ⟨"/v1, Resource=pods", .pod ⟨"7f3a", [⟨"web", true⟩], []⟩⟩)
              "/v1, Resource=pods-7f3a-web-1" true) 1
            (.mk "web" "" [.mk "Image" "nginx" [] none]
              (some (.container ⟨"web", ⟨⟨none, none⟩, ⟨none, none⟩⟩⟩)))).result = some w
      ∧ Ui.isExpanded w = true
      ∧ ∃ r, w = .expanderRow r
        ∧ r.id = Ui.expandedId
            (Ui.onStateFlagsChanged
              (Ui.NewDetailView ⟨"/v1, Resource=pods", .pod ⟨"7f3a", [⟨"web", true⟩], []⟩⟩)
              "/v1, Resource=pods-7f3a-web-1" true) "web" 1
        ∧ (r.expanded = true ↔
            (Ui.onStateFlagsChanged
              (Ui.NewDetailView ⟨"/v1, Resource=pods", .pod ⟨"7f3a", [⟨"web", true⟩], []⟩⟩)
              "/v1, Resource=pods-7f3a-web-1" true).expanded r.id = some true) :=
  ⟨_, rfl, by decide, expanderRow_expanded_iff_stored.1 (fun _ => none)
    (Ui.onStateFlagsChanged
      (Ui.NewDetailView ⟨"/v1, Resource=pods", .pod ⟨"7f3a", [⟨"web", true⟩], []⟩⟩)
      "/v1, Resource=pods-7f3a-web-1" true) "web" ""
    (.mk "Image" "nginx" [] none) []
    (some (.container ⟨"web", ⟨⟨none, none⟩, ⟨none, none⟩⟩⟩)) _ rfl⟩

/-! ### Activation of a reference row -/

theorem context_withCancel_ne (ctx : InternalUi.Context) (n : Nat) :
    InternalUi.Context.withCancel ctx n ≠ ctx := by
  intro h
  have := congrArg sizeOf h
  simp at this
  omega

/-- C7: when the resolver called by the activation of a reference row fails, only a log
line is written: the navigation stack (and so every view on it), the handlers connected
to `popped`, the cancelled scopes and the counts of scopes and tags created are what they
were before.  This is what activating the row rendered for a text property with a
reference at level 0, 1 or 2 does. -/
theorem activateReference_failure_inert (d : InternalUi.DetailView)
    (reference : InternalUi.Reference) (w : InternalUi.World) (err : String)
    (hfail : reference.GetObject d.ctx d.behavior.cluster = .error err) :
    InternalUi.activateReference d reference w = { w with log := w.log ++ [err] }
    ∧ (InternalUi.activateReference d reference w).stack = w.stack
    ∧ (InternalUi.activateReference d reference w).popped = w.popped
    ∧ (InternalUi.activateReference d reference w).cancelled = w.cancelled
    ∧ (InternalUi.activateReference d reference w).contexts = w.contexts
    ∧ (InternalUi.activateReference d reference w).uuids = w.uuids
    ∧ ∀ (level index : Nat) (name value : String) (hook : Option InternalUi.Hook),
        level ≤ 2 →
        InternalUi.activate d w
          (InternalUi.renderObjectProperty d level index
            (.text name value (some reference) hook)).widget
        = { w with log := w.log ++ [err] } := by
  have h : InternalUi.activateReference d reference w = { w with log := w.log ++ [err] } := by
    simp [InternalUi.activateReference, hfail]
  refine ⟨h, by rw [h], by rw [h], by rw [h], by rw [h], by rw [h], ?_⟩
  intro level index name value hook hl
  have hlev : level = 0 ∨ level = 1 ∨ level = 2 := by omega
  simp [InternalUi.renderObjectProperty, hlev, InternalUi.activate, h]

/-- C7 at a concrete input: a resolver that reports `not found`. -/
theorem activateReference_failure_inert_witness :
    (InternalUi.activateReference
        (InternalUi.NewDetailView (.background 0)
          ⟨.background 0, "/v1, Resource=pods", .pod ⟨"7f3a", [], []⟩, ⟨"c"⟩⟩ 0)
        ⟨fun _ _ => .error "not found"⟩
        ⟨[InternalUi.NewDetailView (.background 0)
          ⟨.background 0, "/v1, Resource=pods", .pod ⟨"7f3a", [], []⟩, ⟨"c"⟩⟩ 0],
          [], [], 0, 1, []⟩).stack.length = 1
    ∧ (InternalUi.activateReference
        (InternalUi.NewDetailView (.background 0)
          ⟨.background 0, "/v1, Resource=pods", .pod ⟨"7f3a", [], []⟩, ⟨"c"⟩⟩ 0)
        ⟨fun _ _ => .error "not found"⟩
        ⟨[InternalUi.NewDetailView (.background 0)
          ⟨.background 0, "/v1, Resource=pods", .pod ⟨"7f3a", [], []⟩, ⟨"c"⟩⟩ 0],
          [], [], 0, 1, []⟩).contexts = 0 :=
  have h := activateReference_failure_inert
    (InternalUi.NewDetailView (.background 0)
      ⟨.background 0, "/v1, Resource=pods", .pod ⟨"7f3a", [], []⟩, ⟨"c"⟩⟩ 0)
    ⟨fun _ _ => .error "not found"⟩
    ⟨[InternalUi.NewDetailView (.background 0)
      ⟨.background 0, "/v1, Resource=pods", .pod ⟨"7f3a", [], []⟩, ⟨"c"⟩⟩ 0],
      [], [], 0, 1, []⟩ "not found" rfl
  ⟨by rw [h.2.1]; rfl, by rw [h.2.2.2.2.1]⟩

/-- C8, counterexample: a resolver that answers with an object named after the scope it
is called with.  The view pushed by the activation is bound to the child scope
`withCancel (background 0) 0`, but the object it shows is the one the resolver gives for
the scope `background 0` of the current view: the resolver was not called with the child
scope.  A resolver that succeeds only on a child scope makes the activation inert. -/
theorem activateReference_resolver_scope_counterexample :
    (InternalUi.activateReference
        (InternalUi.NewDetailView (.background 0)
          ⟨.background 0, "/v1, Resource=pods", .pod ⟨"7f3a", [], []⟩, ⟨"c"⟩⟩ 0)
        ⟨fun ctx _ =>
          if ctx = .background 0 then .ok (.other "called-with-view-scope")
          else .ok (.other "called-with-child-scope")⟩
        ⟨[InternalUi.NewDetailView (.background 0)
          ⟨.background 0, "/v1, Resource=pods", .pod ⟨"7f3a", [], []⟩, ⟨"c"⟩⟩ 0],
          [], [], 0, 1, []⟩).stack.map
          (fun dv => (dv.ctx, dv.behavior.ctx, dv.behavior.selectedObject.GetUID))
      = [(.withCancel (.background 0) 0, .withCancel (.background 0) 0,
            "called-with-view-scope"),
         (.background 0, .background 0, "7f3a")]
    ∧ (InternalUi.activateReference
        (InternalUi.NewDetailView (.background 0)
          ⟨.background 0, "/v1, Resource=pods", .pod ⟨"7f3a", [], []⟩, ⟨"c"⟩⟩ 0)
        ⟨fun ctx _ =>
          match ctx with
          | .withCancel _ _ => .ok (.other "resolved")
          | .background _ => .error "no child scope"⟩
        ⟨[InternalUi.NewDetailView (.background 0)
          ⟨.background 0, "/v1, Resource=pods", .pod ⟨"7f3a", [], []⟩, ⟨"c"⟩⟩ 0],
          [], [], 0, 1, []⟩).stack.length = 1 := by
  constructor <;> decide

/-- C8, amended: the activation of a reference row calls the resolver with the scope of
the current view.  When the resolver succeeds, a child scope of that scope (a new scope,
different from it) is made, the pushed view and its behaviour are bound to it and show the
resolved object, and a handler is connected that cancels this child scope when the pushed
view is popped. -/
theorem activateReference_pushes_child_scope (d : InternalUi.DetailView)
    (reference : InternalUi.Reference) (w : InternalUi.World) (obj : ClientObject)
    (hok : reference.GetObject d.ctx d.behavior.cluster = .ok obj)
    (hstack : w.stack ≠ []) :
    ∃ dv, (InternalUi.activateReference d reference w).stack = dv :: w.stack
      ∧ dv.ctx = .withCancel d.ctx w.contexts
      ∧ dv.ctx ≠ d.ctx
      ∧ dv.behavior.ctx = dv.ctx
      ∧ dv.behavior.selectedObject = obj
      ∧ (InternalUi.activateReference d reference w).popped = w.popped ++ [(dv.tag, dv.ctx)]
      ∧ (InternalUi.pop (InternalUi.activateReference d reference w)).stack = w.stack
      ∧ dv.ctx ∈ (InternalUi.pop (InternalUi.activateReference d reference w)).cancelled := by
  obtain ⟨page, rest, hw⟩ : ∃ page rest, w.stack = page :: rest := by
    cases hs : w.stack with
    | nil => exact absurd hs hstack
    | cons page rest => exact ⟨page, rest, rfl⟩
  refine ⟨{ ctx := .withCancel d.ctx w.contexts,
            behavior := (d.behavior.NewDetailBehavior
              (.withCancel d.ctx w.contexts)).UpdateSelectedObject obj,
            tag := w.uuids, prefPage := [], groups := [], expanded := fun _ => none,
            allocated := 0 },
    ?_, rfl, context_withCancel_ne _ _, rfl, rfl, ?_, ?_, ?_⟩
  · simp [InternalUi.activateReference, hok, InternalUi.NewDetailView]
  · simp [InternalUi.activateReference, hok, InternalUi.NewDetailView]
  · simp [InternalUi.activateReference, hok, InternalUi.pop, hw]
  · simp [InternalUi.activateReference, hok, InternalUi.pop, hw, InternalUi.NewDetailView]

/-- C8, amended, at a concrete input: a resolver that finds the object `svc`. -/
theorem activateReference_pushes_child_scope_witness :
    ∃ dv, (InternalUi.activateReference
        (InternalUi.NewDetailView (.background 0)
          ⟨.background 0, "/v1, Resource=pods", .pod ⟨"7f3a", [], []⟩, ⟨"c"⟩⟩ 0)
        ⟨fun _ _ => .ok (.other "svc")⟩
        ⟨[InternalUi.NewDetailView (.background 0)
          ⟨.background 0, "/v1, Resource=pods", .pod ⟨"7f3a", [], []⟩, ⟨"c"⟩⟩ 0],
          [], [], 0, 1, []⟩).stack
        = [dv, InternalUi.NewDetailView (.background 0)
          ⟨.background 0, "/v1, Resource=pods", .pod ⟨"7f3a", [], []⟩, ⟨"c"⟩⟩ 0]
      ∧ dv.ctx = .withCancel (.background 0) 0
      ∧ dv.behavior.selectedObject = .other "svc" :=
  (activateReference_pushes_child_scope
    (InternalUi.NewDetailView (.background 0)
      ⟨.background 0, "/v1, Resource=pods", .pod ⟨"7f3a", [], []⟩, ⟨"c"⟩⟩ 0)
    ⟨fun _ _ => .ok (.other "svc")⟩
    ⟨[InternalUi.NewDetailView (.background 0)
      ⟨.background 0, "/v1, Resource=pods", .pod ⟨"7f3a", [], []⟩, ⟨"c"⟩⟩ 0],
      [], [], 0, 1, []⟩ (.other "svc") rfl (List.cons_ne_nil _ _)).imp
    fun _ h => ⟨h.1, h.2.1, h.2.2.2.2.1⟩

/-! ### Augmentation of rows -/

theorem ui_lookupStatus_ready (name : String) (statuses : List ContainerStatus) :
    (Ui.lookupStatus name statuses).ready = true ↔
      ∃ s, statuses.find? (fun s => s.name == name) = some s ∧ s.ready = true := by
  induction statuses with
  | nil => simp [Ui.lookupStatus]
  | cons s rest ih =>
    by_cases h : s.name = name
    · simp [Ui.lookupStatus, h, List.find?_cons]
    · simp [Ui.lookupStatus, h, List.find?_cons, ih]

theorem ui_lookupStatus_absent (name : String) (statuses : List ContainerStatus)
    (h : ∀ s ∈ statuses, s.name ≠ name) : Ui.lookupStatus name statuses = ⟨"", false⟩ := by
  induction statuses with
  | nil => rfl
  | cons s rest ih =>
    have hs : s.name ≠ name := h s (List.mem_cons_self _ _)
    simp only [Ui.lookupStatus, hs, if_false]
    exact ih fun t ht => h t (List.mem_cons_of_mem _ ht)

/-- C9, counterexample: a Pod without container statuses and a childless node whose object
is the container `web`.  The node is rendered as an action row (level 1 falls through to
level 2), and `extendRow` fails on it: no indicator is added and the rendering fails. -/
theorem extendRow_container_fails_counterexample :
    (Ui.extendRow (fun _ => none)
        (Ui.NewDetailView ⟨"/v1, Resource=pods", .pod ⟨"7f3a", [], []⟩⟩)
        (.actionRow { title := "web", subtitle := "", subtitleSelectable := true,
                      cssClasses := ["property"] }) 1
        (.mk "web" "" [] (some (.container ⟨"web", ⟨⟨none, none⟩, ⟨none, none⟩⟩⟩)))).isNone
      = true
    ∧ (Ui.renderObjectProperty (fun _ => none)
        (Ui.NewDetailView ⟨"/v1, Resource=pods", .pod ⟨"7f3a", [], []⟩⟩) 1
        (.mk "web" "" [] (some (.container ⟨"web", ⟨⟨none, none⟩, ⟨none, none⟩⟩⟩)))).result.isNone
      = true
    ∧ (Ui.renderObjectProperty (fun _ => none)
        (Ui.NewDetailView ⟨"/v1, Resource=pods", .pod ⟨"7f3a", [], []⟩⟩) 2
        (.mk "web" "" [.mk "Image" "nginx" [] none]
          (some (.container ⟨"web", ⟨⟨none, none⟩, ⟨none, none⟩⟩⟩)))).result.isNone
      = true := by
  refine ⟨by decide, by decide, by decide⟩

/-- C9, amended: for a Pod root and a node whose object is a Container, on the collapsible
row of the node (the row of a level-1 node with children) `extendRow` does not fail and
appends one status indicator to the row; the indicator is positive exactly when the first
entry of the container-status list of the pod with the name of the container has
`Ready = true`, and negative when no entry has that name.  The row returned by
`renderObjectProperty` for such a node at level 1 has this indicator as its only one. -/
theorem extendRow_container_status (pq : String → Option Quantity) (d : Ui.DetailView)
    (selected : Pod) (object : Container) (row : ExpanderRowData Widget) (level : Nat)
    (prop : Ui.ObjectProperty)
    (hselected : d.behavior.selectedObject = .pod selected)
    (hobject : prop.Object = some (.container object)) :
    ∃ ok row', Ui.extendRow pq d (.expanderRow row) level prop = some (.expanderRow row')
      ∧ row'.prefixes = row.prefixes ++ [Widget.statusIcon ok]
      ∧ (ok = true ↔ ∃ s, selected.containerStatuses.find? (fun s => s.name == object.name)
            = some s ∧ s.ready = true)
      ∧ ((∀ s ∈ selected.containerStatuses, s.name ≠ object.name) → ok = false)
      ∧ ∀ (name value : String) (child : Ui.ObjectProperty) (rest : List Ui.ObjectProperty)
          (w : Widget),
          (Ui.renderObjectProperty pq d 1
            (.mk name value (child :: rest) (some (.container object)))).result = some w →
          ∃ r, w = .expanderRow r ∧ r.prefixes = [Widget.statusIcon ok] := by
  obtain ⟨row', heq, hpre⟩ : ∃ row',
      Ui.extendRow pq d (.expanderRow row) level prop = some (.expanderRow row')
      ∧ row'.prefixes = row.prefixes ++
          [Widget.statusIcon (Ui.lookupStatus object.name selected.containerStatuses).ready] := by
    rw [ui_extendRow_eq, hselected]
    simp only [hobject]
    exact ⟨_, rfl, rfl⟩
  refine ⟨(Ui.lookupStatus object.name selected.containerStatuses).ready, row', heq, hpre,
    ui_lookupStatus_ready _ _, ?_, ?_⟩
  · intro h
    rw [ui_lookupStatus_absent _ _ h]
  · intro name value child rest w h
    rw [ui_render_one_result] at h
    cases hrows : (Ui.renderChildren pq d 2 (child :: rest)).result with
    | none => simp [hrows] at h
    | some rows =>
      rw [hrows] at h
      simp only [Option.some_bind, ui_extendRow_eq, hselected, Ui.ObjectProperty.Object,
        Option.some.injEq] at h
      exact ⟨_, h.symm, rfl⟩

/-- C9, amended, at a concrete input: the container `web` of a pod whose status list
names `web` as ready. -/
theorem extendRow_container_status_witness :
    ∃ ok row', Ui.extendRow (fun _ => none)
        (Ui.NewDetailView ⟨"/v1, Resource=pods", .pod ⟨"7f3a", [⟨"init", false⟩, ⟨"web", true⟩], []⟩⟩)
        (.expanderRow { title := "web", expanded := false, id := "k" }) 1
        (.mk "web" "" [.mk "Image" "nginx" [] none]
          (some (.container ⟨"web", ⟨⟨none, none⟩, ⟨none, none⟩⟩⟩)))
        = some (.expanderRow row')
      ∧ row'.prefixes = [] ++ [Widget.statusIcon ok]
      ∧ (ok = true ↔ ∃ s, [(⟨"init", false⟩ : ContainerStatus), ⟨"web", true⟩].find?
            (fun s => s.name == "web") = some s ∧ s.ready = true) :=
  (extendRow_container_status (fun _ => none)
    (Ui.NewDetailView ⟨"/v1, Resource=pods", .pod ⟨"7f3a", [⟨"init", false⟩, ⟨"web", true⟩], []⟩⟩)
    ⟨"7f3a", [⟨"init", false⟩, ⟨"web", true⟩], []⟩ ⟨"web", ⟨⟨none, none⟩, ⟨none, none⟩⟩⟩
    { title := "web", expanded := false, id := "k" } 1
    (.mk "web" "" [.mk "Image" "nginx" [] none]
      (some (.container ⟨"web", ⟨⟨none, none⟩, ⟨none, none⟩⟩⟩))) rfl rfl).imp
    fun _ h => h.imp fun _ h => ⟨h.1, h.2.1, h.2.2.1⟩

/-- The loop over the conditions on an action row: every `ContainersReady` condition, in
order, appends its indicator and one more copy of the closure, and makes the row
activatable. -/
theorem ui_podConditionStep_actionRow (object : Pod) :
    ∀ (conds : List PodCondition) (row : ActionRowData Widget),
      ∃ row', conds.foldl (Ui.podConditionStep object) (some (.actionRow row))
          = some (.actionRow row')
        ∧ row'.prefixes = row.prefixes ++
            (conds.filter fun c => c.type = ContainersReady).map
              (fun c => Widget.statusIcon (c.status = ConditionTrue))
        ∧ row'.activated = row.activated ++
            List.replicate (conds.filter fun c => c.type = ContainersReady).length
              (Action.pushDetailView (.pod object))
        ∧ row'.activatable
            = (row.activatable || conds.any (fun c => c.type = ContainersReady))
        ∧ row'.title = row.title ∧ row'.subtitle = row.subtitle := by
  intro conds
  induction conds with
  | nil => intro row; exact ⟨row, rfl, by simp, by simp, by simp, rfl, rfl⟩
  | cons c cs ih =>
    intro row
    rw [List.foldl_cons]
    by_cases hc : c.type = ContainersReady
    · simp only [Ui.podConditionStep, hc, if_true]
      obtain ⟨row', h1, h2, h3, h4, h5, h6⟩ := ih
        { row with
          prefixes := row.prefixes ++ [Widget.statusIcon (c.status = ConditionTrue)]
          activatable := true
          subtitleSelectable := false
          suffixes := row.suffixes ++ [Widget.image "go-next-symbolic"]
          activated := row.activated ++ [Action.pushDetailView (.pod object)] }
      refine ⟨row', h1, ?_, ?_, ?_, h5, h6⟩
      · rw [h2]; simp [hc]
      · rw [h3]; simp [hc, List.replicate_succ]
      · rw [h4]; simp [hc]
    · simp only [Ui.podConditionStep, hc, if_false]
      obtain ⟨row', h1, h2, h3, h4, h5, h6⟩ := ih row
      refine ⟨row', h1, ?_, ?_, ?_, h5, h6⟩
      · rw [h2]; simp [hc]
      · rw [h3]; simp [hc]
      · rw [h4]; simp [hc]

theorem ui_runAction_length (d : Ui.DetailView) :
    ∀ (acts : List Action) (nav : Ui.NavigationView),
      (acts.foldl (Ui.runAction d) nav).length = nav.length + acts.length := by
  intro acts
  induction acts with
  | nil => intro nav; rfl
  | cons a as ih =>
    intro nav
    rw [List.foldl_cons, ih]
    cases a <;> simp [Ui.runAction] <;> omega

theorem ui_runAction_push_last (d : Ui.DetailView) (object : ClientObject) :
    ∀ (k : Nat) (nav : Ui.NavigationView),
      ∃ dv rest, (List.replicate (k + 1) (Action.pushDetailView object)).foldl
          (Ui.runAction d) nav = Ui.Page.detail dv :: rest
        ∧ dv.behavior.selectedObject = object
        ∧ rest.length = nav.length + k := by
  intro k
  induction k with
  | zero => intro nav; exact ⟨_, nav, rfl, rfl, rfl⟩
  | succ k ih =>
    intro nav
    rw [List.replicate_succ, List.foldl_cons]
    obtain ⟨dv, rest, h1, h2, h3⟩ := ih (Ui.runAction d nav (Action.pushDetailView object))
    refine ⟨dv, rest, h1, h2, ?_⟩
    rw [h3]
    simp [Ui.runAction]
    omega

/-- C10: for a Deployment, StatefulSet or Node root and a node whose object is a Pod with a
`ContainersReady = True` condition, `extendRow` on the action row of the node returns the
row activatable and with a positive status indicator among its indicators; activating that
row pushes, in the same step, a detail view whose selected object is that pod on top of
the navigation stack.  This is the row `renderObjectProperty` returns for such a node
without children at level 1 or 2.  For each of the three root kinds `extendRow` is the
same loop over the conditions of the pod, whatever the widget. -/
theorem extendRow_pod_ready (pq : String → Option Quantity) (d : Ui.DetailView)
    (object : Pod) (row : ActionRowData Widget) (level : Nat) (name value : String)
    (children : List Ui.ObjectProperty) (nav : Ui.NavigationView)
    (hroot : (∃ uid, d.behavior.selectedObject = .deployment uid)
      ∨ (∃ uid, d.behavior.selectedObject = .statefulSet uid)
      ∨ (∃ uid, d.behavior.selectedObject = .node uid))
    (hready : ⟨ContainersReady, ConditionTrue⟩ ∈ object.conditions) :
    (∃ row', Ui.extendRow pq d (.actionRow row) level
          (.mk name value children (some (.object (.pod object)))) = some (.actionRow row')
      ∧ row'.activatable = true
      ∧ Widget.statusIcon true ∈ row'.prefixes
      ∧ ∃ dv rest, Ui.activate d nav (.actionRow row') = Ui.Page.detail dv :: rest
        ∧ dv.behavior.selectedObject = .pod object
        ∧ nav.length < (Ui.activate d nav (.actionRow row')).length)
    ∧ (∀ widget lvl, Ui.extendRow pq d widget lvl
          (.mk name value children (some (.object (.pod object))))
        = object.conditions.foldl (Ui.podConditionStep object) (some widget))
    ∧ (∀ lvl, lvl = 1 ∨ lvl = 2 →
        (Ui.renderObjectProperty pq d lvl
          (.mk name value [] (some (.object (.pod object))))).result
        = Ui.extendRow pq d
            (.actionRow { title := name, subtitle := value, subtitleSelectable := true,
                          cssClasses := ["property"] })
            lvl (.mk name value [] (some (.object (.pod object))))) := by
  have hext : ∀ cs widget lvl, Ui.extendRow pq d widget lvl
        (.mk name value cs (some (.object (.pod object))))
      = object.conditions.foldl (Ui.podConditionStep object) (some widget) := by
    intro cs widget lvl
    rw [ui_extendRow_eq]
    rcases hroot with ⟨u, hu⟩ | ⟨u, hu⟩ | ⟨u, hu⟩ <;> rw [hu] <;>
      simp only [Ui.ObjectProperty.Object]
  refine ⟨?_, hext children, ?_⟩
  · obtain ⟨row', h1, h2, h3, h4, _, _⟩ :=
      ui_podConditionStep_actionRow object object.conditions row
    have hmem : (⟨ContainersReady, ConditionTrue⟩ : PodCondition)
        ∈ object.conditions.filter fun c => c.type = ContainersReady := by
      simp [List.mem_filter, hready]
    have hact : row'.activatable = true := by
      rw [h4]
      simp only [Bool.or_eq_true, List.any_eq_true, decide_eq_true_eq]
      exact Or.inr ⟨_, hready, rfl⟩
    obtain ⟨k, hk⟩ : ∃ k, (object.conditions.filter fun c => c.type = ContainersReady).length
        = k + 1 := by
      cases hl : (object.conditions.filter fun c => c.type = ContainersReady) with
      | nil => rw [hl] at hmem; cases hmem
      | cons a as => exact ⟨as.length, rfl⟩
    refine ⟨row', by rw [hext, h1], hact, ?_, ?_⟩
    · rw [h2]
      refine List.mem_append_right _ (List.mem_map.2 ⟨_, hmem, ?_⟩)
      simp
    · have hrun : Ui.activate d nav (.actionRow row')
          = (List.replicate (k + 1) (Action.pushDetailView (.pod object))).foldl
              (Ui.runAction d) (row.activated.foldl (Ui.runAction d) nav) := by
        simp only [Ui.activate, hact, if_true, h3, hk, List.foldl_append]
      obtain ⟨dv, rest, e1, e2, e3⟩ := ui_runAction_push_last d (.pod object) k
        (row.activated.foldl (Ui.runAction d) nav)
      refine ⟨dv, rest, by rw [hrun, e1], e2, ?_⟩
      rw [hrun, e1, List.length_cons, e3]
      have := ui_runAction_length d row.activated nav
      omega
  · intro lvl hl
    rcases hl with rfl | rfl <;> simp [Ui.renderObjectProperty]

/-- C10 at a concrete input: a Deployment view, a pod that is ready, the row of a
childless level-1 node, and a navigation stack holding the Deployment view. -/
theorem extendRow_pod_ready_witness :
    ∃ row', Ui.extendRow (fun _ => none)
        (Ui.NewDetailView ⟨"apps/v1, Resource=deployments", .deployment "7f3a"⟩)
        (.actionRow { title := "web-5d9c", subtitle := "Running", subtitleSelectable := true,
                      cssClasses := ["property"] }) 1
        (.mk "web-5d9c" "Running" [] (some (.object (.pod
          ⟨"91bc", [], [⟨"Ready", "True"⟩, ⟨"ContainersReady", "True"⟩]⟩))))
        = some (.actionRow row')
      ∧ row'.activatable = true
      ∧ Widget.statusIcon true ∈ row'.prefixes
      ∧ ∃ dv rest, Ui.activate
          (Ui.NewDetailView ⟨"apps/v1, Resource=deployments", .deployment "7f3a"⟩)
          [Ui.Page.detail
            (Ui.NewDetailView ⟨"apps/v1, Resource=deployments", .deployment "7f3a"⟩)]
          (.actionRow row') = Ui.Page.detail dv :: rest
        ∧ dv.behavior.selectedObject
            = .pod ⟨"91bc", [], [⟨"Ready", "True"⟩, ⟨"ContainersReady", "True"⟩]⟩
        ∧ [Ui.Page.detail
            (Ui.NewDetailView ⟨"apps/v1, Resource=deployments", .deployment "7f3a"⟩)].length
          < (Ui.activate
              (Ui.NewDetailView ⟨"apps/v1, Resource=deployments", .deployment "7f3a"⟩)
              [Ui.Page.detail
                (Ui.NewDetailView ⟨"apps/v1, Resource=deployments", .deployment "7f3a"⟩)]
              (.actionRow row')).length :=
  (extendRow_pod_ready (fun _ => none)
    (Ui.NewDetailView ⟨"apps/v1, Resource=deployments", .deployment "7f3a"⟩)
    ⟨"91bc", [], [⟨"Ready", "True"⟩, ⟨"ContainersReady", "True"⟩]⟩
    { title := "web-5d9c", subtitle := "Running", subtitleSelectable := true,
      cssClasses := ["property"] } 1 "web-5d9c" "Running" []
    [Ui.Page.detail (Ui.NewDetailView ⟨"apps/v1, Resource=deployments", .deployment "7f3a"⟩)]
    (Or.inl ⟨"7f3a", rfl⟩)
    (List.mem_cons_of_mem _ (List.mem_cons_self _ _))).1

/-! ### Widget type assertions of `extendRow` -/

theorem ui_podConditionStep_expanderRow_isNone (object : Pod) (r : ExpanderRowData Widget) :
    ∀ conds : List PodCondition,
      (conds.foldl (Ui.podConditionStep object) (some (.expanderRow r))).isNone = true
        ↔ ∃ c ∈ conds, c.type = ContainersReady := by
  intro conds
  induction conds with
  | nil => simp
  | cons c cs ih =>
    rw [List.foldl_cons]
    by_cases hc : c.type = ContainersReady
    · have : Ui.podConditionStep object (some (.expanderRow r)) c = none := by
        simp [Ui.podConditionStep, hc]
      rw [this, ui_podConditionStep_none]
      simp [hc]
    · have : Ui.podConditionStep object (some (.expanderRow r)) c = some (.expanderRow r) := by
        simp [Ui.podConditionStep, hc]
      rw [this, ih]
      simp [hc]

/-- On an action row `extendRow` fails exactly for a Container node under a Pod root. -/
theorem ui_extendRow_actionRow_isNone (pq : String → Option Quantity) (d : Ui.DetailView)
    (row : ActionRowData Widget) (level : Nat) (prop : Ui.ObjectProperty) :
    (Ui.extendRow pq d (.actionRow row) level prop).isNone = true
      ↔ ∃ selected object, d.behavior.selectedObject = .pod selected
          ∧ prop.Object = some (.container object) := by
  rw [ui_extendRow_eq]
  cases hsel : d.behavior.selectedObject with
  | pod selected =>
    cases hobj : prop.Object with
    | none => simp
    | some o => cases o <;> simp
  | other u => simp
  | deployment u =>
    cases hobj : prop.Object with
    | none => simp
    | some o =>
      cases o with
      | container c => simp
      | object o =>
        cases o with
        | pod object =>
          obtain ⟨row', h, _⟩ := ui_podConditionStep_actionRow object object.conditions row
          simp [h]
        | _ => simp
  | statefulSet u =>
    cases hobj : prop.Object with
    | none => simp
    | some o =>
      cases o with
      | container c => simp
      | object o =>
        cases o with
        | pod object =>
          obtain ⟨row', h, _⟩ := ui_podConditionStep_actionRow object object.conditions row
          simp [h]
        | _ => simp
  | node u =>
    cases hobj : prop.Object with
    | none => simp
    | some o =>
      cases o with
      | container c => simp
      | object o =>
        cases o with
        | pod object =>
          obtain ⟨row', h, _⟩ := ui_podConditionStep_actionRow object object.conditions row
          simp [h]
        | _ => simp

/-- On a collapsible row `extendRow` fails exactly for a Pod node with a `ContainersReady`
condition under a Deployment, StatefulSet or Node root. -/
theorem ui_extendRow_expanderRow_isNone (pq : String → Option Quantity) (d : Ui.DetailView)
    (row : ExpanderRowData Widget) (level : Nat) (prop : Ui.ObjectProperty) :
    (Ui.extendRow pq d (.expanderRow row) level prop).isNone = true
      ↔ ((∃ uid, d.behavior.selectedObject = .deployment uid)
          ∨ (∃ uid, d.behavior.selectedObject = .statefulSet uid)
          ∨ (∃ uid, d.behavior.selectedObject = .node uid))
        ∧ ∃ object, prop.Object = some (.object (.pod object))
          ∧ ∃ c ∈ object.conditions, c.type = ContainersReady := by
  rw [ui_extendRow_eq]
  cases hsel : d.behavior.selectedObject with
  | pod selected =>
    cases hobj : prop.Object with
    | none => simp
    | some o => cases o <;> simp
  | other u => simp
  | deployment u =>
    cases hobj : prop.Object with
    | none => simp
    | some o =>
      cases o with
      | container c => simp
      | object o =>
        cases o with
        | pod object =>
          simpa [Option.isNone_iff_eq_none] using
            ui_podConditionStep_expanderRow_isNone object row object.conditions
        | _ => simp
  | statefulSet u =>
    cases hobj : prop.Object with
    | none => simp
    | some o =>
      cases o with
      | container c => simp
      | object o =>
        cases o with
        | pod object =>
          simpa [Option.isNone_iff_eq_none] using
            ui_podConditionStep_expanderRow_isNone object row object.conditions
        | _ => simp
  | node u =>
    cases hobj : prop.Object with
    | none => simp
    | some o =>
      cases o with
      | container c => simp
      | object o =>
        cases o with
        | pod object =>
          simpa [Option.isNone_iff_eq_none] using
            ui_podConditionStep_expanderRow_isNone object row object.conditions
        | _ => simp

theorem ui_render_leaf_result (pq : String → Option Quantity) (d : Ui.DetailView)
    (level : Nat) (hlevel : level = 1 ∨ level = 2) (name value : String)
    (object : Option AnyObject) :
    (Ui.renderObjectProperty pq d level (.mk name value [] object)).result
      = Ui.extendRow pq d
          (.actionRow { title := name, subtitle := value, subtitleSelectable := true,
                        cssClasses := ["property"] })
          level (.mk name value [] object) := by
  rcases hlevel with rfl | rfl <;> simp [Ui.renderObjectProperty]

theorem ui_render_two_result (pq : String → Option Quantity) (d : Ui.DetailView)
    (name value : String) (child : Ui.ObjectProperty) (rest : List Ui.ObjectProperty)
    (object : Option AnyObject) :
    (Ui.renderObjectProperty pq d 2 (.mk name value (child :: rest) object)).result
      = (Ui.renderChildren pq d 3 (child :: rest)).result.bind fun ws =>
          Ui.extendRow pq d
            (.actionRow { title := name, content := [Widget.flowBox ws],
                          cssClasses := ["property"] })
            2 (.mk name value (child :: rest) object) := by
  simp [Ui.renderObjectProperty]

/-- C11: `extendRow` can fail on a widget type assertion for nodes `renderObjectProperty`
renders at level 1 or 2.  Under a Pod root a childless Container node at level 1 falls
through to an action row, and so does any Container node at level 2: the assertion to
`*adw.ExpanderRow` fails and the whole rendering with it.  Under a Deployment (StatefulSet,
Node) root a Pod node with a `ContainersReady` condition and with children at level 1
becomes a collapsible row: the assertion to `*adw.ActionRow` fails.  The same nodes render
when the Container node has children at level 1 and the Pod node has none.  In general
`extendRow` fails on an action row exactly for a Container node under a Pod root, and on a
collapsible row exactly for a Pod node with a `ContainersReady` condition under a
Deployment, StatefulSet or Node root. -/
theorem extendRow_type_assertion_fails :
    ((Ui.renderObjectProperty (fun _ => none)
        (Ui.NewDetailView ⟨"/v1, Resource=pods", .pod ⟨"c2d4", [⟨"sidecar", true⟩], []⟩⟩) 0
        (.mk "Containers" ""
          [.mk "sidecar" "" [] (some (.container ⟨"sidecar", ⟨⟨none, none⟩, ⟨none, none⟩⟩⟩))]
          none)).result.isNone = true
      ∧ (Ui.renderObjectProperty (fun _ => none)
        (Ui.NewDetailView ⟨"/v1, Resource=pods", .pod ⟨"c2d4", [⟨"sidecar", true⟩], []⟩⟩) 0
        (.mk "Containers" ""
          [.mk "sidecar" "" [] (some (.container ⟨"sidecar", ⟨⟨none, none⟩, ⟨none, none⟩⟩⟩))]
          none)).calls = [0, 1])
    ∧ ((Ui.renderObjectProperty (fun _ => none)
        (Ui.NewDetailView ⟨"apps/v1, Resource=deployments", .deployment "e5f6"⟩) 0
        (.mk "Pods" ""
          [.mk "api-7c9d" "Running" [.mk "IP" "10.0.0.7" [] none]
            (some (.object (.pod ⟨"a1b2", [], [⟨"ContainersReady", "True"⟩]⟩)))]
          none)).result.isNone = true
      ∧ (Ui.renderObjectProperty (fun _ => none)
        (Ui.NewDetailView ⟨"apps/v1, Resource=deployments", .deployment "e5f6"⟩) 0
        (.mk "Pods" ""
          [.mk "api-7c9d" "Running" [.mk "IP" "10.0.0.7" [] none]
            (some (.object (.pod ⟨"a1b2", [], [⟨"ContainersReady", "True"⟩]⟩)))]
          none)).calls = [0, 1, 2])
    ∧ ((Ui.renderObjectProperty (fun _ => none)
        (Ui.NewDetailView ⟨"/v1, Resource=pods", .pod ⟨"c2d4", [⟨"sidecar", true⟩], []⟩⟩) 0
        (.mk "Containers" ""
          [.mk "sidecar" "" [.mk "Image" "envoy" [] none]
            (some (.container ⟨"sidecar", ⟨⟨none, none⟩, ⟨none, none⟩⟩⟩))]
          none)).result.isSome = true
      ∧ (Ui.renderObjectProperty (fun _ => none)
        (Ui.NewDetailView ⟨"apps/v1, Resource=deployments", .deployment "e5f6"⟩) 0
        (.mk "Pods" ""
          [.mk "api-7c9d" "Running" []
            (some (.object (.pod ⟨"a1b2", [], [⟨"ContainersReady", "True"⟩]⟩)))]
          none)).result.isSome = true)
    ∧ (∀ (pq : String → Option Quantity) (d : Ui.DetailView) (selected : Pod)
        (object : Container) (name value : String) (children : List Ui.ObjectProperty),
      d.behavior.selectedObject = .pod selected →
      (Ui.renderObjectProperty pq d 1
          (.mk name value [] (some (.container object)))).result = none
      ∧ (Ui.renderObjectProperty pq d 2
          (.mk name value children (some (.container object)))).result = none)
    ∧ (∀ (pq : String → Option Quantity) (d : Ui.DetailView) (object : Pod)
        (name value : String) (child : Ui.ObjectProperty) (rest : List Ui.ObjectProperty),
      ((∃ uid, d.behavior.selectedObject = .deployment uid)
        ∨ (∃ uid, d.behavior.selectedObject = .statefulSet uid)
        ∨ (∃ uid, d.behavior.selectedObject = .node uid)) →
      (∃ c ∈ object.conditions, c.type = ContainersReady) →
      (Ui.renderObjectProperty pq d 1
          (.mk name value (child :: rest) (some (.object (.pod object))))).result = none)
    ∧ (∀ (pq : String → Option Quantity) (d : Ui.DetailView) (row : ActionRowData Widget)
        (level : Nat) (prop : Ui.ObjectProperty),
      (Ui.extendRow pq d (.actionRow row) level prop).isNone = true
        ↔ ∃ selected object, d.behavior.selectedObject = .pod selected
            ∧ prop.Object = some (.container object))
    ∧ (∀ (pq : String → Option Quantity) (d : Ui.DetailView) (row : ExpanderRowData Widget)
        (level : Nat) (prop : Ui.ObjectProperty),
      (Ui.extendRow pq d (.expanderRow row) level prop).isNone = true
        ↔ ((∃ uid, d.behavior.selectedObject = .deployment uid)
            ∨ (∃ uid, d.behavior.selectedObject = .statefulSet uid)
            ∨ (∃ uid, d.behavior.selectedObject = .node uid))
          ∧ ∃ object, prop.Object = some (.object (.pod object))
            ∧ ∃ c ∈ object.conditions, c.type = ContainersReady) := by
  refine ⟨⟨by decide, by decide⟩, ⟨by decide, by decide⟩, ⟨by decide, by decide⟩, ?_, ?_,
    ui_extendRow_actionRow_isNone, ui_extendRow_expanderRow_isNone⟩
  · intro pq d selected object name value children hsel
    have hfail : ∀ (row : ActionRowData Widget) (lvl : Nat) (cs : List Ui.ObjectProperty),
        Ui.extendRow pq d (.actionRow row) lvl
          (.mk name value cs (some (.container object))) = none := by
      intro row lvl cs
      rw [← Option.isNone_iff_eq_none, ui_extendRow_actionRow_isNone]
      exact ⟨selected, object, hsel, rfl⟩
    constructor
    · rw [ui_render_leaf_result pq d 1 (Or.inl rfl), hfail]
    · cases children with
      | nil => rw [ui_render_leaf_result pq d 2 (Or.inr rfl), hfail]
      | cons child rest =>
        rw [ui_render_two_result]
        cases (Ui.renderChildren pq d 3 (child :: rest)).result with
        | none => rfl
        | some ws => simp only [Option.some_bind, hfail]
  · intro pq d object name value child rest hroot hcond
    have hfail : ∀ (row : ExpanderRowData Widget),
        Ui.extendRow pq d (.expanderRow row) 1
          (.mk name value (child :: rest) (some (.object (.pod object)))) = none := by
      intro row
      rw [← Option.isNone_iff_eq_none, ui_extendRow_expanderRow_isNone]
      exact ⟨hroot, object, rfl, hcond⟩
    rw [ui_render_one_result]
    cases (Ui.renderChildren pq d 2 (child :: rest)).result with
    | none => rfl
    | some rows => simp only [Option.some_bind, hfail]

end Seabird
